import Mathlib

/-!
# Multigrid driver `miniapps/performance/mg.cpp` and Helmholtz driver
`examples/maxwell-solver/helmholtz_pml_ST.cpp`

A shallow embedding of the set-up logic of the multigrid miniapp: the class
`PoissonMultigridOperator` (operator, coarse solver and smoother construction)
and the part of `main` that checks the options, builds the space hierarchy and
assembles the multigrid operator; and of the right-hand side functions of the
Helmholtz driver.

Library objects (meshes, spaces, forms, matrices, solvers) are embedded as
*construction records*: a value records which constructor was called with which
arguments and which setters were applied, in the order of the source.
-/

namespace MG

/-! ## Library objects -/

/-- Meshes, by the way they are built in the source. -/
inductive Mesh where
  /-- `Mesh(1, 1, Element::QUADRILATERAL, true, 1.0, 1.0, false)` -/
  | cartesianQuad : Mesh
  /-- `UniformRefinement()` applied to a mesh -/
  | uniformRefinement (m : Mesh) : Mesh
  /-- `ParMesh(MPI_COMM_WORLD, *mesh)` -/
  | parallel (m : Mesh) : Mesh
  /-- `Mesh(mesh, ref_factor, BasisType::GaussLobatto)`: the low-order-refined mesh -/
  | lowOrderRefined (m : Mesh) (ref_factor : Int) : Mesh
  deriving DecidableEq, Inhabited

/-- `Mesh::Dimension()`: every mesh of the driver descends from the 2D quad mesh. -/
def Mesh.Dimension : Mesh → Nat
  | .cartesianQuad => 2
  | .uniformRefinement m => m.Dimension
  | .parallel m => m.Dimension
  | .lowOrderRefined m _ => m.Dimension

/-- `H1_FECollection(order, dim, BasisType::GaussLobatto)`. -/
structure H1_FECollection where
  order : Int
  dim : Nat
  deriving DecidableEq, Inhabited

/-- `ParFiniteElementSpace(mesh, fec)` (also the serial `FiniteElementSpace`). -/
structure FiniteElementSpace where
  mesh : Mesh
  fec : H1_FECollection
  deriving DecidableEq, Inhabited

/-- `FiniteElementSpace::GetOrder(0)`. -/
def FiniteElementSpace.GetOrder (fes : FiniteElementSpace) : Int := fes.fec.order

/-- The boundary-attribute marker `ess_bdr`: an array sized by the boundary
attributes of a mesh and filled with one value. -/
structure BdrMarker where
  attributesOf : Mesh
  value : Int
  deriving DecidableEq, Inhabited

/-- The result of `fespace.GetEssentialTrueDofs(ess_bdr, list)`: the boundary
mask of a space, recorded by the marker and the space it was computed from. -/
structure EssentialDofs where
  bdr_marker : BdrMarker
  fespace : FiniteElementSpace
  deriving DecidableEq, Inhabited

/-- `FiniteElementSpace::GetEssentialTrueDofs`. -/
def FiniteElementSpace.GetEssentialTrueDofs (fes : FiniteElementSpace)
    (ess_bdr : BdrMarker) : EssentialDofs :=
  { bdr_marker := ess_bdr, fespace := fes }

/-- Coefficients used by the forms. -/
inductive Coefficient where
  /-- `ConstantCoefficient(c)` -/
  | constant (c : ℚ) : Coefficient
  /-- `FunctionCoefficient` of `x ↦ slope * x[0] + intercept` -/
  | affineX0 (slope intercept : ℚ) : Coefficient
  /-- `ConstantCoefficient(-omega * omega)` with `omega = 2 π 5.3` -/
  | minusOmegaSquared : Coefficient
  deriving DecidableEq

/-- Domain integrators added by `AddIntegrators`. -/
inductive Integrator where
  | diffusion (c : Coefficient) : Integrator
  | mass (c : Coefficient) : Integrator
  deriving DecidableEq

/-- `AssemblyLevel`. -/
inductive AssemblyLevel where
  | FULL : AssemblyLevel
  | PARTIAL : AssemblyLevel
  deriving DecidableEq

/-- A (Par)BilinearForm: its space and what was done to it.  `assemblyLevel`
is `none` while `SetAssemblyLevel` has not been called. -/
structure BilinearForm where
  fespace : FiniteElementSpace
  assemblyLevel : Option AssemblyLevel
  integrators : List Integrator
  precomputedSparsity : Bool
  assembled : Bool
  deriving DecidableEq, Inhabited

/-- `new (Par)BilinearForm(fespace)`. -/
def BilinearForm.new (fes : FiniteElementSpace) : BilinearForm :=
  { fespace := fes, assemblyLevel := none, integrators := [],
    precomputedSparsity := false, assembled := false }

/-- `Operator::Type` values used by `ConstructOperator`. -/
inductive OperatorType where
  | ANY_TYPE : OperatorType
  | Hypre_ParCSR : OperatorType
  deriving DecidableEq, Inhabited

/-- Operators handled by the driver. -/
inductive Operator where
  /-- the operator of `form->FormSystemMatrix(essentialDofs, opr)` -/
  | systemMatrix (form : BilinearForm) (essentialDofs : EssentialDofs)
      (type : OperatorType) : Operator
  /-- `TrueTransferOperator(lFESpace, hFESpace)` -/
  | trueTransfer (lFESpace hFESpace : FiniteElementSpace) : Operator
  /-- `IdentityOperator(n)` -/
  | identity (n : Nat) : Operator
  deriving DecidableEq, Inhabited

/-- Modelled from the spec: `Operator::Width()`, the input dimension, of the
library operators (their classes are not under src/).  `GetTrueVSize` is the
library's unknown count of a space.  A system matrix is square on its space; a
transfer operator is a linear map from the unknowns of the coarser space
`lFESpace` to those of the finer space `hFESpace`. -/
def Operator.Width (GetTrueVSize : FiniteElementSpace → Nat) : Operator → Nat
  | .systemMatrix form _ _ => GetTrueVSize form.fespace
  | .trueTransfer lFESpace _ => GetTrueVSize lFESpace
  | .identity n => n

/-- Modelled from the spec: `Operator::Height()`, the output dimension, of the
library operators. -/
def Operator.Height (GetTrueVSize : FiniteElementSpace → Nat) : Operator → Nat
  | .systemMatrix form _ _ => GetTrueVSize form.fespace
  | .trueTransfer _ hFESpace => GetTrueVSize hFESpace
  | .identity n => n

/-- Where a `HypreParMatrix*` comes from. -/
inductive HypreParMatrix where
  /-- `dynamic_cast<HypreParMatrix*>(opr)`: the already assembled operator -/
  | ofOperator (opr : Operator) : HypreParMatrix
  /-- `new HypreParMatrix()` filled by `form->FormSystemMatrix(essentialDofs, ·)` -/
  | formSystemMatrix (form : BilinearForm) (essentialDofs : EssentialDofs) :
      HypreParMatrix
  deriving DecidableEq

/-- `HypreBoomerAMG`; a setting is `none` while its setter has not been called. -/
structure HypreBoomerAMG where
  matrix : HypreParMatrix
  printLevel : Option Int
  maxIter : Option Int
  deriving DecidableEq

/-- `new HypreBoomerAMG(A)`. -/
def HypreBoomerAMG.new (A : HypreParMatrix) : HypreBoomerAMG :=
  { matrix := A, printLevel := none, maxIter := none }

/-- `HypreBoomerAMG::SetPrintLevel`. -/
def HypreBoomerAMG.SetPrintLevel (amg : HypreBoomerAMG) (l : Int) : HypreBoomerAMG :=
  { amg with printLevel := some l }

/-- `HypreBoomerAMG::SetMaxIter`. -/
def HypreBoomerAMG.SetMaxIter (amg : HypreBoomerAMG) (n : Int) : HypreBoomerAMG :=
  { amg with maxIter := some n }

/-- `GMRESSolver` over operators `Op` with preconditioners `Prec`; a setting is
`none` while its setter has not been called. -/
structure GMRESSolver (Op Prec : Type) where
  printLevel : Option Int
  maxIter : Option Int
  relTol : Option ℚ
  absTol : Option ℚ
  oper : Option Op
  preconditioner : Option Prec
  deriving DecidableEq

namespace GMRESSolver

variable {Op Prec : Type}

/-- `GMRESSolver(MPI_COMM_WORLD)`. -/
def new : GMRESSolver Op Prec :=
  { printLevel := none, maxIter := none, relTol := none, absTol := none,
    oper := none, preconditioner := none }

def SetPrintLevel (g : GMRESSolver Op Prec) (l : Int) : GMRESSolver Op Prec :=
  { g with printLevel := some l }

def SetMaxIter (g : GMRESSolver Op Prec) (n : Int) : GMRESSolver Op Prec :=
  { g with maxIter := some n }

def SetRelTol (g : GMRESSolver Op Prec) (t : ℚ) : GMRESSolver Op Prec :=
  { g with relTol := some t }

def SetAbsTol (g : GMRESSolver Op Prec) (t : ℚ) : GMRESSolver Op Prec :=
  { g with absTol := some t }

def SetOperator (g : GMRESSolver Op Prec) (op : Op) : GMRESSolver Op Prec :=
  { g with oper := some op }

def SetPreconditioner (g : GMRESSolver Op Prec) (p : Prec) : GMRESSolver Op Prec :=
  { g with preconditioner := some p }

end GMRESSolver

/-- Vectors that enter the smoother, by the way they are filled. -/
inductive Vector where
  /-- `new Vector(fespace->GetTrueVSize())`, never written to -/
  | uninitialized (sizeOf : FiniteElementSpace) : Vector
  /-- the nodal values `1 / sqrt(coeff)` written by the element loop -/
  | invSqrtCoeff (fespace : FiniteElementSpace) (coeff : Coefficient) : Vector
  deriving DecidableEq

/-- `SparseMatrix` filled by `form->FormSystemMatrix(essentialDofs, ·)`. -/
structure SparseMatrix where
  form : BilinearForm
  essentialDofs : EssentialDofs
  deriving DecidableEq

/-- `AdditiveSchwarzApproxLORSmoother(fespace, essentialDofs, form, coeffDiag,
LORdiag, LORmat, weight)`.  `form` is the reference `*forms.Last()`, which is
`none` when the list of forms is empty. -/
structure AdditiveSchwarzApproxLORSmoother where
  fespace : FiniteElementSpace
  essentialDofs : EssentialDofs
  form : Option BilinearForm
  coeffDiag : Vector
  LORdiag : Vector
  LORmat : SparseMatrix
  weight : ℚ
  deriving DecidableEq

/-- The `Solver*` values of the driver. -/
inductive Solver where
  | boomerAMG (amg : HypreBoomerAMG) : Solver
  | gmres (g : GMRESSolver Operator HypreBoomerAMG) : Solver
  /-- `HypreSmoother(static_cast<HypreParMatrix&>(*solveOperator))` -/
  | hypreSmoother (A : Operator) : Solver
  | additiveSchwarzApproxLOR (s : AdditiveSchwarzApproxLORSmoother) : Solver
  deriving DecidableEq

/-- `ProductOperator(A, B, false, false)` of a smoother and an operator. -/
structure ProductOperator where
  A : AdditiveSchwarzApproxLORSmoother
  B : Operator
  deriving DecidableEq

/-- `PowerMethod::EstimateLargestEigenvalue(opr, v0, numSteps, tolerance)`:
library numerics, taken as a parameter of the embedding. -/
abbrev PowerMethod := ProductOperator → Int → ℚ → ℚ

/-- Modelled from the spec: the base class `MultigridOperator` is library code
that is not under src/.  It keeps, coarsest first, one operator and one
smoother per level and one prolongation per level above the coarsest, each
with its ownership flag. -/
structure MultigridOperator where
  operators : List Operator
  smoothers : List Solver
  prolongations : List Operator
  ownedOperators : List Bool
  ownedSmoothers : List Bool
  ownedProlongations : List Bool
  deriving DecidableEq

namespace MultigridOperator

/-- `MultigridOperator()`: no level yet. -/
def new : MultigridOperator :=
  { operators := [], smoothers := [], prolongations := [],
    ownedOperators := [], ownedSmoothers := [], ownedProlongations := [] }

/-- Modelled from the spec: `MultigridOperator::AddCoarsestLevel(opr, solver,
ownOperator, ownSolver)` (library code, not under src/) stores the coarsest
level: its operator and its solver, and no transfer operator. -/
def AddCoarsestLevel (mg : MultigridOperator) (opr : Operator) (solver : Solver)
    (ownOperator ownSolver : Bool) : MultigridOperator :=
  { mg with
    operators := mg.operators ++ [opr]
    smoothers := mg.smoothers ++ [solver]
    ownedOperators := mg.ownedOperators ++ [ownOperator]
    ownedSmoothers := mg.ownedSmoothers ++ [ownSolver] }

/-- Modelled from the spec: `MultigridOperator::AddLevel(opr, smoother,
prolongation, ownOperator, ownSmoother, ownProlongation)` (library code, not
under src/) appends exactly one level: its operator, its smoother and the
transfer operator from the level below. -/
def AddLevel (mg : MultigridOperator) (opr : Operator) (smoother : Solver)
    (prolongation : Operator) (ownOperator ownSmoother ownProlongation : Bool) :
    MultigridOperator :=
  { mg with
    operators := mg.operators ++ [opr]
    smoothers := mg.smoothers ++ [smoother]
    prolongations := mg.prolongations ++ [prolongation]
    ownedOperators := mg.ownedOperators ++ [ownOperator]
    ownedSmoothers := mg.ownedSmoothers ++ [ownSmoother]
    ownedProlongations := mg.ownedProlongations ++ [ownProlongation] }

/-- `MultigridOperator::NumLevels()`. -/
def NumLevels (mg : MultigridOperator) : Nat := mg.operators.length

/-- `MultigridOperator::GetOperatorAtLevel(level)`.  A read outside the levels
is undefined in the source; the embedding returns `default` there. -/
def GetOperatorAtLevel (mg : MultigridOperator) (level : Nat) : Operator :=
  mg.operators.getD level default

/-- `MultigridOperator::GetSmootherAtLevel(level)`; `none` outside the levels. -/
def GetSmootherAtLevel (mg : MultigridOperator) (level : Nat) : Option Solver :=
  mg.smoothers[level]?

/-- The transfer operator stored with level `level >= 1`: the one that maps
level `level - 1` to level `level`; `none` for the coarsest level. -/
def GetProlongationAtLevel (mg : MultigridOperator) (level : Nat) : Option Operator :=
  match level with
  | 0 => none
  | k + 1 => mg.prolongations[k]?

/-- `Operator::Height()` of the multigrid operator: the height of the operator
of the finest level (0 while there is no level). -/
def Height (GetTrueVSize : FiniteElementSpace → Nat) (mg : MultigridOperator) : Nat :=
  match mg.operators.getLast? with
  | some opr => opr.Height GetTrueVSize
  | none => 0

end MultigridOperator

/-! ## `class PoissonMultigridOperator` -/

/-- The members of `PoissonMultigridOperator`, on top of its base class.  A
pointer member is `none` while it is `nullptr`. -/
structure PoissonMultigridOperator extends MultigridOperator where
  forms : List BilinearForm
  partialAssembly : Bool
  ownLORMatrix : Bool
  coeff : Coefficient
  hypreCoarseMat : Option HypreParMatrix
  a_pc : Option BilinearForm
  pmesh_lor : Option Mesh
  fec_lor : Option H1_FECollection
  fespace_lor : Option FiniteElementSpace
  useCoarsePCG : Bool
  amg : Option HypreBoomerAMG
  coarsePCGSolver : Option (GMRESSolver Operator HypreBoomerAMG)
  deriving DecidableEq

namespace PoissonMultigridOperator

/-- `AddIntegrators(form)`: a diffusion integrator with `coeff` and a mass
integrator with `-omega * omega`. -/
def AddIntegrators (self : PoissonMultigridOperator) (form : BilinearForm) :
    BilinearForm :=
  { form with
    integrators := form.integrators ++
      [Integrator.diffusion self.coeff, Integrator.mass Coefficient.minusOmegaSquared] }

/-- `ConstructOperator(fespace, essentialDofs)`: returns the operator and appends
the form to `forms`. -/
def ConstructOperator (self : PoissonMultigridOperator) (fespace : FiniteElementSpace)
    (essentialDofs : EssentialDofs) : Operator × PoissonMultigridOperator :=
  let form := BilinearForm.new fespace
  let form :=
    if self.partialAssembly then { form with assemblyLevel := some AssemblyLevel.PARTIAL }
    else form
  let form := self.AddIntegrators form
  let form :=
    if !self.partialAssembly then { form with precomputedSparsity := true } else form
  let form := { form with assembled := true }
  let type :=
    if self.partialAssembly then OperatorType.ANY_TYPE else OperatorType.Hypre_ParCSR
  let opr := Operator.systemMatrix form essentialDofs type
  (opr, { self with forms := self.forms ++ [form] })

/-- `ConstructCoarseSolver(mesh, opr, essentialDofs, coarseOrder, coarseSteps)`,
statement by statement.  The test of `useCoarsePCG` and the call of
`SetPreconditioner` are commented out in the source, so neither is executed. -/
def ConstructCoarseSolver (self : PoissonMultigridOperator) (mesh : Mesh)
    (opr : Operator) (essentialDofs : EssentialDofs) (coarseOrder coarseSteps : Int) :
    Solver × PoissonMultigridOperator :=
  let (hypreCoarseMat, self) :=
    if !self.partialAssembly && coarseOrder == 1 then
      let hypreCoarseMat := HypreParMatrix.ofOperator opr
      (hypreCoarseMat, { self with hypreCoarseMat := some hypreCoarseMat })
    else
      let (a_pc, self) :=
        if coarseOrder > 1 then
          let pmesh_lor := Mesh.lowOrderRefined mesh coarseOrder
          let fec_lor : H1_FECollection := { order := 1, dim := mesh.Dimension }
          let fespace_lor : FiniteElementSpace := { mesh := pmesh_lor, fec := fec_lor }
          let a_pc := BilinearForm.new fespace_lor
          (a_pc, { self with
                   pmesh_lor := some pmesh_lor
                   fec_lor := some fec_lor
                   fespace_lor := some fespace_lor
                   a_pc := some a_pc })
        else
          let fec_lor : H1_FECollection := { order := 1, dim := mesh.Dimension }
          let fespace_lor : FiniteElementSpace := { mesh := mesh, fec := fec_lor }
          let a_pc := BilinearForm.new fespace_lor
          (a_pc, { self with
                   fec_lor := some fec_lor
                   fespace_lor := some fespace_lor
                   a_pc := some a_pc })
      let a_pc := self.AddIntegrators a_pc
      let a_pc := { a_pc with precomputedSparsity := true }
      let a_pc := { a_pc with assembled := true }
      let hypreCoarseMat := HypreParMatrix.formSystemMatrix a_pc essentialDofs
      (hypreCoarseMat, { self with
                         a_pc := some a_pc
                         hypreCoarseMat := some hypreCoarseMat
                         ownLORMatrix := true })
  let amg := HypreBoomerAMG.new hypreCoarseMat
  let amg := amg.SetPrintLevel (-1)
  let amg := amg.SetMaxIter coarseSteps
  let amg := amg.SetMaxIter 1
  let coarsePCGSolver : GMRESSolver Operator HypreBoomerAMG := GMRESSolver.new
  let coarsePCGSolver := coarsePCGSolver.SetPrintLevel 0
  let coarsePCGSolver := coarsePCGSolver.SetMaxIter 2000
  let coarsePCGSolver := coarsePCGSolver.SetRelTol (1 / 10000)
  let coarsePCGSolver := coarsePCGSolver.SetAbsTol 0
  let coarsePCGSolver := coarsePCGSolver.SetOperator opr
  (Solver.gmres coarsePCGSolver,
    { self with amg := some amg, coarsePCGSolver := some coarsePCGSolver })

/-- The members of a `PoissonMultigridOperator` when the body of its
constructor has chosen `coeff`: the default member initialisers, the
initialiser list (`partialAssembly`, `useCoarsePCG`) and `coeff`. -/
def init (partialAssembly_ useCoarsePCG_ jump : Bool) : PoissonMultigridOperator :=
  { toMultigridOperator := MultigridOperator.new
    forms := []
    partialAssembly := partialAssembly_
    ownLORMatrix := false
    coeff := if jump then Coefficient.affineX0 5 1 else Coefficient.constant 1
    hypreCoarseMat := none
    a_pc := none
    pmesh_lor := none
    fec_lor := none
    fespace_lor := none
    useCoarsePCG := useCoarsePCG_
    amg := none
    coarsePCGSolver := none }

/-- The constructor `PoissonMultigridOperator(mesh, fespace, essentialDofs,
coarseOrder, partialAssembly_, coarseSteps, useCoarsePCG_, jump)`. -/
def new (mesh : Mesh) (fespace : FiniteElementSpace) (essentialDofs : EssentialDofs)
    (coarseOrder : Int) (partialAssembly_ : Bool) (coarseSteps : Int)
    (useCoarsePCG_ jump : Bool) : PoissonMultigridOperator :=
  let self := init partialAssembly_ useCoarsePCG_ jump
  let (coarseOpr, self) := self.ConstructOperator fespace essentialDofs
  let (coarseSolver, self) :=
    self.ConstructCoarseSolver mesh coarseOpr essentialDofs coarseOrder coarseSteps
  { self with
    toMultigridOperator :=
      self.toMultigridOperator.AddCoarsestLevel coarseOpr coarseSolver
        self.partialAssembly true }

/-- `ConstructSmoother(fespace, solveOperator, essentialDofs, chebyshevOrder)`.
The only uses of `chebyshevOrder` and of the assembled diagonal `diag` are in
commented-out statements. -/
def ConstructSmoother (EstimateLargestEigenvalue : PowerMethod)
    (self : PoissonMultigridOperator) (fespace : FiniteElementSpace)
    (solveOperator : Operator) (essentialDofs : EssentialDofs) (_chebyshevOrder : Int) :
    Solver :=
  if self.partialAssembly then
    let coeffDiag := Vector.invSqrtCoeff fespace self.coeff
    let pmesh_lor := Mesh.lowOrderRefined fespace.mesh fespace.GetOrder
    let fec_lor_ : H1_FECollection := { order := 1, dim := pmesh_lor.Dimension }
    let fespace_lor_ : FiniteElementSpace := { mesh := pmesh_lor, fec := fec_lor_ }
    let a_pc_ := BilinearForm.new fespace_lor_
    let a_pc_ := { a_pc_ with assemblyLevel := some AssemblyLevel.FULL }
    let a_pc_ := self.AddIntegrators a_pc_
    let a_pc_ := { a_pc_ with precomputedSparsity := true }
    let a_pc_ := { a_pc_ with assembled := true }
    let LORdiag := Vector.uninitialized fespace
    let LORmat : SparseMatrix := { form := a_pc_, essentialDofs := essentialDofs }
    let test : AdditiveSchwarzApproxLORSmoother :=
      { fespace := fespace, essentialDofs := essentialDofs, form := self.forms.getLast?,
        coeffDiag := coeffDiag, LORdiag := LORdiag, LORmat := LORmat, weight := 1 }
    let powerOperator : ProductOperator := { A := test, B := solveOperator }
    let estLargestEigenvalue := EstimateLargestEigenvalue powerOperator 10 (1 / 100000000)
    let upper_bound := 11 / 10 * estLargestEigenvalue
    let lower_bound := 0 * estLargestEigenvalue
    let theta := 1 / 2 * (upper_bound + lower_bound)
    let weight := 1 / theta
    Solver.additiveSchwarzApproxLOR
      { fespace := fespace, essentialDofs := essentialDofs, form := self.forms.getLast?,
        coeffDiag := coeffDiag, LORdiag := LORdiag, LORmat := LORmat, weight := weight }
  else
    Solver.hypreSmoother solveOperator

/-- The value of the local `estLargestEigenvalue` of `ConstructSmoother` on a
partially assembled level: the statements of `ConstructSmoother` up to the
call of `EstimateLargestEigenvalue(powerOperator, ev, 10, 1e-8)`. -/
def estLargestEigenvalue (EstimateLargestEigenvalue : PowerMethod)
    (self : PoissonMultigridOperator) (fespace : FiniteElementSpace)
    (solveOperator : Operator) (essentialDofs : EssentialDofs) : ℚ :=
  let coeffDiag := Vector.invSqrtCoeff fespace self.coeff
  let pmesh_lor := Mesh.lowOrderRefined fespace.mesh fespace.GetOrder
  let fec_lor_ : H1_FECollection := { order := 1, dim := pmesh_lor.Dimension }
  let fespace_lor_ : FiniteElementSpace := { mesh := pmesh_lor, fec := fec_lor_ }
  let a_pc_ := BilinearForm.new fespace_lor_
  let a_pc_ := { a_pc_ with assemblyLevel := some AssemblyLevel.FULL }
  let a_pc_ := self.AddIntegrators a_pc_
  let a_pc_ := { a_pc_ with precomputedSparsity := true }
  let a_pc_ := { a_pc_ with assembled := true }
  let LORdiag := Vector.uninitialized fespace
  let LORmat : SparseMatrix := { form := a_pc_, essentialDofs := essentialDofs }
  let test : AdditiveSchwarzApproxLORSmoother :=
    { fespace := fespace, essentialDofs := essentialDofs, form := self.forms.getLast?,
      coeffDiag := coeffDiag, LORdiag := LORdiag, LORmat := LORmat, weight := 1 }
  let powerOperator : ProductOperator := { A := test, B := solveOperator }
  EstimateLargestEigenvalue powerOperator 10 (1 / 100000000)

/-- `AddLevel(lFEspace, hFEspace, essentialDofs, chebyshevOrder)`. -/
def AddLevel (EstimateLargestEigenvalue : PowerMethod) (self : PoissonMultigridOperator)
    (lFEspace hFEspace : FiniteElementSpace) (essentialDofs : EssentialDofs)
    (chebyshevOrder : Int) : PoissonMultigridOperator :=
  let (opr, self) := self.ConstructOperator hFEspace essentialDofs
  let smoother :=
    self.ConstructSmoother EstimateLargestEigenvalue hFEspace opr essentialDofs
      chebyshevOrder
  let P := Operator.trueTransfer lFEspace hFEspace
  { self with
    toMultigridOperator :=
      self.toMultigridOperator.AddLevel opr smoother P self.partialAssembly true true }

end PoissonMultigridOperator

/-! ## `main` -/

/-- `enum class Method`. -/
inductive Method where
  | MG : Method
  | LOR : Method
  | LORS : Method
  deriving DecidableEq

/-- The option values after `args.Parse()` succeeded (`args.Good()`). -/
structure Config where
  mesh_file : String
  ref_levels : Int
  pref_levels : Int
  order : Int
  h_levels : Int
  o_levels : Int
  smoothingSteps : Int
  coarseSteps : Int
  chebyshevOrder : Int
  visualization : Bool
  partialAssembly : Bool
  precondInput : String
  useCoarsePCG : Bool
  jump : Bool
  deriving DecidableEq

/-- The initial values of the options in `main`. -/
def Config.initial : Config :=
  { mesh_file := "../../data/inline-quad.mesh"
    ref_levels := 0
    pref_levels := 0
    order := 1
    h_levels := 2
    o_levels := 1
    smoothingSteps := 3
    coarseSteps := 2
    chebyshevOrder := 3
    visualization := true
    partialAssembly := true
    precondInput := "MG"
    useCoarsePCG := false
    jump := false }

/-- The table `mapInputToPrecond` with `std::map::find`: `none` is `end()`. -/
def mapInputToPrecond (precondInput : String) : Option Method :=
  [("MG", Method.MG), ("LOR", Method.LOR), ("LORS", Method.LORS)].lookup precondInput

/-- How `main` ends: it returns an exit code, or `MFEM_ABORT(msg)` is reached. -/
inductive ExitStatus where
  | returned (code : Int) : ExitStatus
  | aborted (msg : String) : ExitStatus
  deriving DecidableEq

/-- The two checks of the options in `main`, in the order of the source. -/
def checkOptions (cfg : Config) : Except String Method :=
  if cfg.o_levels > 1 ∧ cfg.order > 1 then
    Except.error "Order refinements are not supported with order > 1"
  else
    match mapInputToPrecond cfg.precondInput with
    | none => Except.error ("Method " ++ cfg.precondInput ++ " not found")
    | some method => Except.ok method

/-- The body `body(level)` of `for (int level = 1; level < n; ++level)`, run on a
state: levels `1, ..., n - 1` in this order, no iteration when `n <= 1`. -/
def forLevels {σ : Type} (n : Int) (body : Nat → σ → σ) (init : σ) : σ :=
  (List.range' 1 (n - 1).toNat).foldl (fun st level => body level st) init

/-- `f` applied `n` times, for `for (int i = 0; i < n; ++i)` loops whose body
does not read `i`. -/
def repeatTimes {σ : Type} (n : Int) (f : σ → σ) (init : σ) : σ :=
  (List.range n.toNat).foldl (fun st _ => f st) init

/-- The mesh of the coarsest level: the quad mesh, `ref_levels` serial
refinements, the parallel mesh, `pref_levels` parallel refinements. -/
def buildMesh (cfg : Config) : Mesh :=
  let mesh := Mesh.cartesianQuad
  let mesh := repeatTimes cfg.ref_levels Mesh.uniformRefinement mesh
  let pmesh := Mesh.parallel mesh
  repeatTimes cfg.pref_levels Mesh.uniformRefinement pmesh

/-- Modelled from the spec: `ParSpaceHierarchy` is library code that is not
under src/.  It is the ordered, append-only sequence of the spaces of the
levels, coarsest first. -/
structure ParSpaceHierarchy where
  fespaces : List FiniteElementSpace
  deriving DecidableEq

namespace ParSpaceHierarchy

/-- `ParSpaceHierarchy(pmesh, fespace, true, true)`: the hierarchy of one level. -/
def new (fespace : FiniteElementSpace) : ParSpaceHierarchy := { fespaces := [fespace] }

/-- `GetNumLevels()`. -/
def GetNumLevels (h : ParSpaceHierarchy) : Nat := h.fespaces.length

/-- `GetFESpaceAtLevel(level)`.  A read outside the levels is undefined in the
source; the embedding returns `default` there. -/
def GetFESpaceAtLevel (h : ParSpaceHierarchy) (level : Nat) : FiniteElementSpace :=
  h.fespaces.getD level default

/-- `GetFinestFESpace()`. -/
def GetFinestFESpace (h : ParSpaceHierarchy) : FiniteElementSpace :=
  h.fespaces.getLastD default

/-- Modelled from the spec: geometric refinement appends one level, on the
once-refined mesh of the finest level, at the same polynomial order. -/
def AddUniformlyRefinedLevel (h : ParSpaceHierarchy) : ParSpaceHierarchy :=
  let finest := h.GetFinestFESpace
  { fespaces := h.fespaces ++
      [{ mesh := Mesh.uniformRefinement finest.mesh, fec := finest.fec }] }

/-- Modelled from the spec: order refinement appends one level, on the mesh of
the finest level, with the given collection. -/
def AddOrderRefinedLevel (h : ParSpaceHierarchy) (fec : H1_FECollection) :
    ParSpaceHierarchy :=
  let finest := h.GetFinestFESpace
  { fespaces := h.fespaces ++ [{ mesh := finest.mesh, fec := fec }] }

end ParSpaceHierarchy

/-- The conversion of a non-negative integral `double` to `int`: the value
itself when it is representable, `INT_MIN` otherwise (the result of the
conversion instruction of the x86-64 targets; the conversion is undefined in
C++ there, and no `int` holds the value). -/
def doubleToInt (x : Nat) : Int := if x < 2 ^ 31 then (x : Int) else -(2 ^ 31)

/-- `int newOrder = std::pow(2, level)`. -/
def newOrder (level : Nat) : Int := doubleToInt (2 ^ level)

/-- The locals of `main` that describe the hierarchy of spaces. -/
structure Spaces where
  orders : List Int
  feCollectons : List H1_FECollection
  essentialTrueDoFs : List EssentialDofs
  spaceHierarchy : ParSpaceHierarchy
  deriving DecidableEq

/-- The body of the loop of the geometric refinements. -/
def geometricRefinementStep (cfg : Config) (st : Spaces) : Spaces :=
  { st with
    spaceHierarchy := st.spaceHierarchy.AddUniformlyRefinedLevel
    orders := st.orders ++ [cfg.order] }

/-- The body of the loop of the order refinements, at `level`. -/
def orderRefinementStep (dim : Nat) (level : Nat) (st : Spaces) : Spaces :=
  let newOrder := newOrder level
  let fec : H1_FECollection := { order := newOrder, dim := dim }
  { st with
    feCollectons := st.feCollectons ++ [fec]
    spaceHierarchy := st.spaceHierarchy.AddOrderRefinedLevel fec
    orders := st.orders ++ [newOrder] }

/-- The body of the loop that collects the essential dofs, at `level`. -/
def collectEssentialDofsStep (ess_bdr : BdrMarker) (level : Nat) (st : Spaces) : Spaces :=
  { st with
    essentialTrueDoFs := st.essentialTrueDoFs ++
      [(st.spaceHierarchy.GetFESpaceAtLevel level).GetEssentialTrueDofs ess_bdr] }

/-- The part of `main` from `Array<int> orders;` to the end of the loop that
collects the essential dofs. -/
def buildSpaces (cfg : Config) (pmesh : Mesh) (ess_bdr : BdrMarker) : Spaces :=
  let dim := pmesh.Dimension
  let fec : H1_FECollection := { order := cfg.order, dim := dim }
  let fespace : FiniteElementSpace := { mesh := pmesh, fec := fec }
  let st : Spaces :=
    { orders := [cfg.order]
      feCollectons := [fec]
      essentialTrueDoFs := [fespace.GetEssentialTrueDofs ess_bdr]
      spaceHierarchy := ParSpaceHierarchy.new fespace }
  let st := forLevels cfg.h_levels (fun _ => geometricRefinementStep cfg) st
  let st := forLevels cfg.o_levels (orderRefinementStep dim) st
  forLevels st.spaceHierarchy.GetNumLevels (collectEssentialDofsStep ess_bdr) st

/-- The construction of `solveOperator`, depending on the method. -/
def buildSolveOperator (GetTrueVSize : FiniteElementSpace → Nat)
    (EstimateLargestEigenvalue : PowerMethod) (cfg : Config) (method : Method)
    (sp : Spaces) : PoissonMultigridOperator :=
  if method = Method.LOR ∨ method = Method.LORS then
    let solveOperator := PoissonMultigridOperator.new
      sp.spaceHierarchy.GetFinestFESpace.mesh sp.spaceHierarchy.GetFinestFESpace
      (sp.essentialTrueDoFs.getLastD default) (sp.orders.getLastD default)
      cfg.partialAssembly cfg.coarseSteps cfg.useCoarsePCG cfg.jump
    if method = Method.LORS then
      let opr := solveOperator.GetOperatorAtLevel 0
      let identityProlongation :=
        Operator.identity (solveOperator.toMultigridOperator.Height GetTrueVSize)
      let smoother := solveOperator.ConstructSmoother EstimateLargestEigenvalue
        sp.spaceHierarchy.GetFinestFESpace opr (sp.essentialTrueDoFs.getLastD default)
        cfg.chebyshevOrder
      { solveOperator with
        toMultigridOperator :=
          solveOperator.toMultigridOperator.AddLevel opr smoother identityProlongation
            false true true }
    else solveOperator
  else
    let solveOperator := PoissonMultigridOperator.new
      (sp.spaceHierarchy.GetFESpaceAtLevel 0).mesh (sp.spaceHierarchy.GetFESpaceAtLevel 0)
      (sp.essentialTrueDoFs.getD 0 default) (sp.orders.getD 0 default)
      cfg.partialAssembly cfg.coarseSteps cfg.useCoarsePCG cfg.jump
    forLevels sp.spaceHierarchy.GetNumLevels (fun level solveOperator =>
      solveOperator.AddLevel EstimateLargestEigenvalue
        (sp.spaceHierarchy.GetFESpaceAtLevel (level - 1))
        (sp.spaceHierarchy.GetFESpaceAtLevel level)
        (sp.essentialTrueDoFs.getD level default) cfg.chebyshevOrder) solveOperator

/-- `MultigridSolver::CycleType`. -/
inductive CycleType where
  | VCYCLE : CycleType
  | WCYCLE : CycleType
  deriving DecidableEq

/-- `MultigridSolver(op, cycleType, preSmoothingSteps, postSmoothingSteps)`. -/
structure MultigridSolver where
  op : PoissonMultigridOperator
  cycleType : CycleType
  preSmoothingSteps : Int
  postSmoothingSteps : Int
  deriving DecidableEq

/-- The states of one application of the cycle (section 4.6 of the spec). -/
inductive CycleStep where
  /-- one application of the smoother of `level`, before the coarse correction -/
  | PRE_SMOOTH (level : Nat) : CycleStep
  /-- the residual of `level` restricted to `level - 1` -/
  | RESTRICT (level : Nat) : CycleStep
  /-- the solver stored with the coarsest level, applied to the residual equation -/
  | COARSE_SOLVE : CycleStep
  /-- the correction of `level - 1` prolonged and added on `level` -/
  | PROLONG_CORRECT (level : Nat) : CycleStep
  /-- one application of the smoother of `level`, after the coarse correction -/
  | POST_SMOOTH (level : Nat) : CycleStep
  deriving DecidableEq

/-- Modelled from the spec: the cycle executor of `MultigridSolver` is library
code that is not under src/.  The V-cycle at `level`, as the sequence of its
steps: `p` pre-smoothing steps, the restriction, the cycle at `level - 1`, the
prolongation with correction, `q` post-smoothing steps; at the coarsest level
the cycle is the coarse solve, with no smoothing around it. -/
def MultigridSolver.Cycle (p q : Nat) : Nat → List CycleStep
  | 0 => [CycleStep.COARSE_SOLVE]
  | level + 1 =>
    List.replicate p (CycleStep.PRE_SMOOTH (level + 1)) ++
      [CycleStep.RESTRICT (level + 1)] ++
      MultigridSolver.Cycle p q level ++
      [CycleStep.PROLONG_CORRECT (level + 1)] ++
      List.replicate q (CycleStep.POST_SMOOTH (level + 1))

/-- Modelled from the spec: one application `MultigridSolver::Mult` of the
preconditioner is one V-cycle that starts at the finest level. -/
def MultigridSolver.Mult (solver : MultigridSolver) : List CycleStep :=
  MultigridSolver.Cycle solver.preSmoothingSteps.toNat solver.postSmoothingSteps.toNat
    (solver.op.NumLevels - 1)

/-- The solver that a step of the cycle applies, if it applies one: the entry
of its level in the list of the smoothers (for the coarsest level this entry is
the coarse solver passed to `AddCoarsestLevel`). -/
def CycleStep.solver (op : PoissonMultigridOperator) : CycleStep → Option Solver
  | CycleStep.PRE_SMOOTH level => op.smoothers[level]?
  | CycleStep.POST_SMOOTH level => op.smoothers[level]?
  | CycleStep.COARSE_SOLVE => op.smoothers[0]?
  | CycleStep.RESTRICT _ => none
  | CycleStep.PROLONG_CORRECT _ => none

/-- What `main` has built and done when it ends.  A component is `none` (or
empty, or `false`) while the statement that builds it has not been executed. -/
structure MainState where
  method : Option Method
  pmesh : Option Mesh
  spaces : Option Spaces
  solveOperator : Option PoissonMultigridOperator
  preconditioner : Option MultigridSolver
  pcg : Option (GMRESSolver PoissonMultigridOperator MultigridSolver)
  solveAttempted : Bool
  exit : ExitStatus
  deriving DecidableEq

/-- The state of `main` right after the options were parsed and printed. -/
def MainState.start : MainState :=
  { method := none, pmesh := none, spaces := none, solveOperator := none,
    preconditioner := none, pcg := none, solveAttempted := false,
    exit := ExitStatus.returned 0 }

/-- The driver `main`, from the first check of the options to `return 0`. -/
def main (GetTrueVSize : FiniteElementSpace → Nat)
    (EstimateLargestEigenvalue : PowerMethod) (cfg : Config) : MainState :=
  let st := MainState.start
  match checkOptions cfg with
  | Except.error msg => { st with exit := ExitStatus.aborted msg }
  | Except.ok method =>
    let st := { st with method := some method }
    let ess_bdr : BdrMarker := { attributesOf := Mesh.cartesianQuad, value := 1 }
    let pmesh := buildMesh cfg
    let st := { st with pmesh := some pmesh }
    let sp := buildSpaces cfg pmesh ess_bdr
    let st := { st with spaces := some sp }
    let solveOperator :=
      buildSolveOperator GetTrueVSize EstimateLargestEigenvalue cfg method sp
    let st := { st with solveOperator := some solveOperator }
    let preconditioner : MultigridSolver :=
      { op := solveOperator, cycleType := CycleType.VCYCLE,
        preSmoothingSteps := cfg.smoothingSteps, postSmoothingSteps := cfg.smoothingSteps }
    let st := { st with preconditioner := some preconditioner }
    let pcg : GMRESSolver PoissonMultigridOperator MultigridSolver := GMRESSolver.new
    let pcg := pcg.SetPrintLevel 1
    let pcg := pcg.SetMaxIter 1000
    let pcg := pcg.SetRelTol 0
    let pcg := pcg.SetAbsTol (1 / 100000000)
    let pcg := pcg.SetOperator solveOperator
    let pcg := pcg.SetPreconditioner preconditioner
    { st with pcg := some pcg, solveAttempted := true, exit := ExitStatus.returned 0 }

/-! ## Closed forms of the hierarchy

Descriptions of the hierarchy level by level, to compare with what the loops of
`main` build. -/

namespace Spec

/-- The space of the geometric level `i`: the coarse mesh refined `i` times,
with the collection of the base order. -/
def geometricSpace (pmesh : Mesh) (fec : H1_FECollection) (i : Nat) : FiniteElementSpace :=
  { mesh := Mesh.uniformRefinement^[i] pmesh, fec := fec }

/-- The space of the order level built at `level` of the order loop: the same
mesh, the collection of order `newOrder level`. -/
def orderSpace (mesh : Mesh) (dim : Nat) (level : Nat) : FiniteElementSpace :=
  { mesh := mesh, fec := { order := newOrder level, dim := dim } }

/-- The number of geometric refinement steps, `max(h_levels - 1, 0)`. -/
def geometricSteps (cfg : Config) : Nat := (cfg.h_levels - 1).toNat

/-- The number of order refinement steps, `max(o_levels - 1, 0)`. -/
def orderSteps (cfg : Config) : Nat := (cfg.o_levels - 1).toNat

/-- The spaces of the levels, coarsest first: the base space and the geometric
levels, then the order levels. -/
def levelSpaces (cfg : Config) (pmesh : Mesh) : List FiniteElementSpace :=
  (List.range (geometricSteps cfg + 1)).map
      (geometricSpace pmesh { order := cfg.order, dim := pmesh.Dimension }) ++
    (List.range' 1 (orderSteps cfg)).map
      (orderSpace (Mesh.uniformRefinement^[geometricSteps cfg] pmesh) pmesh.Dimension)

/-- The orders of the levels, coarsest first. -/
def levelOrders (cfg : Config) : List Int :=
  List.replicate (geometricSteps cfg + 1) cfg.order ++
    (List.range' 1 (orderSteps cfg)).map newOrder

/-- The operator that `ConstructOperator` builds on a space, as a function of
the assembly flag and the coefficient. -/
def levelOperator (partialAssembly : Bool) (coeff : Coefficient)
    (fespace : FiniteElementSpace) (essentialDofs : EssentialDofs) : Operator :=
  Operator.systemMatrix
    { fespace := fespace
      assemblyLevel := if partialAssembly then some AssemblyLevel.PARTIAL else none
      integrators :=
        [Integrator.diffusion coeff, Integrator.mass Coefficient.minusOmegaSquared]
      precomputedSparsity := !partialAssembly
      assembled := true }
    essentialDofs
    (if partialAssembly then OperatorType.ANY_TYPE else OperatorType.Hypre_ParCSR)

end Spec

end MG

/-! # Helmholtz driver `examples/maxwell-solver/helmholtz_pml_ST.cpp`

The right-hand side functions `f_exact_Re` and `f_exact_Im`.  A finite `double`
is a rational number.  Every arithmetic operation of the source returns the
rounding `fl` of its exact result to a `double`, and the library function `exp`
returns a `double`; `fl` and `exp` are parameters, so that what is proved holds
for the rounding and the `exp` of the platform, underflow to 0 included.
Comparisons of doubles are exact.  Infinite values and NaN are not embedded. -/

namespace HelmholtzPML

end HelmholtzPML

namespace MG

/-! ## The checks of the options -/

/-- The table lookup, case by case: only the three exact names are found. -/
theorem mapInputToPrecond_eq (s : String) :
    mapInputToPrecond s =
      if s = "MG" then some Method.MG
      else if s = "LOR" then some Method.LOR
      else if s = "LORS" then some Method.LORS
      else none := by
  unfold mapInputToPrecond
  by_cases h1 : s = "MG"
  · subst h1; rfl
  · by_cases h2 : s = "LOR"
    · subst h2; rfl
    · by_cases h3 : s = "LORS"
      · subst h3; rfl
      · have e1 : (s == "MG") = false := by simpa using h1
        have e2 : (s == "LOR") = false := by simpa using h2
        have e3 : (s == "LORS") = false := by simpa using h3
        simp [List.lookup, h1, h2, h3, e1, e2, e3]

/-- When `checkOptions` fails, `main` stops in its start state: nothing is built. -/
theorem main_of_checkOptions_error (tvs : FiniteElementSpace → Nat) (pm : PowerMethod)
    (cfg : Config) (msg : String) (h : checkOptions cfg = Except.error msg) :
    main tvs pm cfg = { MainState.start with exit := ExitStatus.aborted msg } := by
  simp [main, h]

/-- When `checkOptions` succeeds, `main` runs to `return 0` with that method. -/
theorem main_of_checkOptions_ok (tvs : FiniteElementSpace → Nat) (pm : PowerMethod)
    (cfg : Config) (method : Method) (h : checkOptions cfg = Except.ok method) :
    (main tvs pm cfg).method = some method ∧
      (main tvs pm cfg).exit = ExitStatus.returned 0 ∧
      (main tvs pm cfg).spaces =
        some (buildSpaces cfg (buildMesh cfg) { attributesOf := Mesh.cartesianQuad, value := 1 }) ∧
      (main tvs pm cfg).solveOperator =
        some (buildSolveOperator tvs pm cfg method
          (buildSpaces cfg (buildMesh cfg) { attributesOf := Mesh.cartesianQuad, value := 1 })) := by
  simp [main, h]

/-- The first check: `o_levels > 1` with `order > 1` is rejected. -/
theorem checkOptions_order_error (cfg : Config) (ho : cfg.o_levels > 1)
    (hp : cfg.order > 1) :
    checkOptions cfg =
      Except.error "Order refinements are not supported with order > 1" := by
  simp [checkOptions, ho, hp]

/-- C2: when `o_levels > 1` and `order > 1`, whatever the other options are,
`main` reaches `MFEM_ABORT("Order refinements are not supported with order > 1")`
and at that point no mesh, no space, no operator, no preconditioner and no
outer solver has been built, and no solve has been attempted. -/
theorem C2_order_refinement_aborts_setup (GetTrueVSize : FiniteElementSpace → Nat)
    (EstimateLargestEigenvalue : PowerMethod) (cfg : Config)
    (ho : cfg.o_levels > 1) (hp : cfg.order > 1) :
    (main GetTrueVSize EstimateLargestEigenvalue cfg).exit =
        ExitStatus.aborted "Order refinements are not supported with order > 1" ∧
      (main GetTrueVSize EstimateLargestEigenvalue cfg).pmesh = none ∧
      (main GetTrueVSize EstimateLargestEigenvalue cfg).spaces = none ∧
      (main GetTrueVSize EstimateLargestEigenvalue cfg).solveOperator = none ∧
      (main GetTrueVSize EstimateLargestEigenvalue cfg).preconditioner = none ∧
      (main GetTrueVSize EstimateLargestEigenvalue cfg).pcg = none ∧
      (main GetTrueVSize EstimateLargestEigenvalue cfg).solveAttempted = false := by
  rw [main_of_checkOptions_error GetTrueVSize EstimateLargestEigenvalue cfg _
    (checkOptions_order_error cfg ho hp)]
  simp [MainState.start]

/-- C2 at `-o 2 -ol 2` (the other options at their initial values). -/
theorem C2_order_refinement_aborts_setup_witness :
    (main (fun _ => 0) (fun _ _ _ => 1)
        { Config.initial with order := 2, o_levels := 2 }).exit =
        ExitStatus.aborted "Order refinements are not supported with order > 1" ∧
      (main (fun _ => 0) (fun _ _ _ => 1)
        { Config.initial with order := 2, o_levels := 2 }).pmesh = none ∧
      (main (fun _ => 0) (fun _ _ _ => 1)
        { Config.initial with order := 2, o_levels := 2 }).spaces = none ∧
      (main (fun _ => 0) (fun _ _ _ => 1)
        { Config.initial with order := 2, o_levels := 2 }).solveOperator = none ∧
      (main (fun _ => 0) (fun _ _ _ => 1)
        { Config.initial with order := 2, o_levels := 2 }).preconditioner = none ∧
      (main (fun _ => 0) (fun _ _ _ => 1)
        { Config.initial with order := 2, o_levels := 2 }).pcg = none ∧
      (main (fun _ => 0) (fun _ _ _ => 1)
        { Config.initial with order := 2, o_levels := 2 }).solveAttempted = false :=
  C2_order_refinement_aborts_setup (fun _ => 0) (fun _ _ _ => 1)
    { Config.initial with order := 2, o_levels := 2 } (by decide) (by decide)

/-- C3 fails as stated: with `-o 0 -ol 2` both checks of `main` pass (the method
is found, `main` returns 0), more than one order level is requested, and the
base order is not 1. -/
theorem C3_counterexample_order_zero :
    checkOptions { Config.initial with order := 0, o_levels := 2 } =
        Except.ok Method.MG ∧
      (main (fun _ => 0) (fun _ _ _ => 1)
        { Config.initial with order := 0, o_levels := 2 }).exit = ExitStatus.returned 0 ∧
      ({ Config.initial with order := 0, o_levels := 2 } : Config).o_levels > 1 ∧
      ({ Config.initial with order := 0, o_levels := 2 } : Config).order ≠ 1 := by
  refine ⟨rfl, rfl, by decide, by decide⟩

/-- C3, amended: for every configuration with which `main` passes its checks
(it is not aborted and returns 0) and with `o_levels > 1`, the base order is
at most 1. -/
theorem C3_base_order_at_most_one (GetTrueVSize : FiniteElementSpace → Nat)
    (EstimateLargestEigenvalue : PowerMethod) (cfg : Config)
    (hpass : (main GetTrueVSize EstimateLargestEigenvalue cfg).exit = ExitStatus.returned 0)
    (ho : cfg.o_levels > 1) : cfg.order ≤ 1 := by
  by_contra hp
  have hp1 : cfg.order > 1 := by omega
  rw [main_of_checkOptions_error GetTrueVSize EstimateLargestEigenvalue cfg _
    (checkOptions_order_error cfg ho hp1)] at hpass
  simp [MainState.start] at hpass

/-- C3, amended, at `-o 1 -ol 2`. -/
theorem C3_base_order_at_most_one_witness :
    (main (fun _ => 0) (fun _ _ _ => 1)
        { Config.initial with order := 1, o_levels := 2 }).exit = ExitStatus.returned 0 ∧
      ({ Config.initial with order := 1, o_levels := 2 } : Config).o_levels > 1 ∧
      ({ Config.initial with order := 1, o_levels := 2 } : Config).order ≤ 1 :=
  ⟨rfl, by decide,
    C3_base_order_at_most_one (fun _ => 0) (fun _ _ _ => 1)
      { Config.initial with order := 1, o_levels := 2 } rfl (by decide)⟩

/-- C4: the method name is found in the table exactly when it is one of the
strings "MG", "LOR", "LORS", and then the method of the same name is selected;
with any other name `main` is aborted (with "Method ... not found" when the
order check passed) before anything is built and before any solve; with one of
the three names and the order check passed, `main` runs with that method. -/
theorem C4_method_name_accepted_iff (GetTrueVSize : FiniteElementSpace → Nat)
    (EstimateLargestEigenvalue : PowerMethod) (cfg : Config) :
    (∀ m : Method, mapInputToPrecond cfg.precondInput = some m ↔
        (cfg.precondInput = "MG" ∧ m = Method.MG) ∨
        (cfg.precondInput = "LOR" ∧ m = Method.LOR) ∨
        (cfg.precondInput = "LORS" ∧ m = Method.LORS)) ∧
      (cfg.precondInput ∉ ["MG", "LOR", "LORS"] →
        (∃ msg, (main GetTrueVSize EstimateLargestEigenvalue cfg).exit =
            ExitStatus.aborted msg) ∧
        (¬ (cfg.o_levels > 1 ∧ cfg.order > 1) →
          (main GetTrueVSize EstimateLargestEigenvalue cfg).exit =
            ExitStatus.aborted ("Method " ++ cfg.precondInput ++ " not found")) ∧
        (main GetTrueVSize EstimateLargestEigenvalue cfg).method = none ∧
        (main GetTrueVSize EstimateLargestEigenvalue cfg).pmesh = none ∧
        (main GetTrueVSize EstimateLargestEigenvalue cfg).spaces = none ∧
        (main GetTrueVSize EstimateLargestEigenvalue cfg).solveOperator = none ∧
        (main GetTrueVSize EstimateLargestEigenvalue cfg).preconditioner = none ∧
        (main GetTrueVSize EstimateLargestEigenvalue cfg).pcg = none ∧
        (main GetTrueVSize EstimateLargestEigenvalue cfg).solveAttempted = false) ∧
      (cfg.precondInput ∈ ["MG", "LOR", "LORS"] → ¬ (cfg.o_levels > 1 ∧ cfg.order > 1) →
        (main GetTrueVSize EstimateLargestEigenvalue cfg).method =
            mapInputToPrecond cfg.precondInput ∧
        (main GetTrueVSize EstimateLargestEigenvalue cfg).exit = ExitStatus.returned 0) := by
  refine ⟨?_, ?_, ?_⟩
  · intro m
    rw [mapInputToPrecond_eq]
    by_cases h1 : cfg.precondInput = "MG"
    · rw [h1]; simp; exact eq_comm
    · by_cases h2 : cfg.precondInput = "LOR"
      · rw [h2]; simp; exact eq_comm
      · by_cases h3 : cfg.precondInput = "LORS"
        · rw [h3]; simp; exact eq_comm
        · simp [h1, h2, h3]
  · intro hn
    simp only [List.mem_cons, List.mem_singleton, List.not_mem_nil, or_false, not_or] at hn
    have hnone : mapInputToPrecond cfg.precondInput = none := by
      rw [mapInputToPrecond_eq]; simp [hn.1, hn.2.1, hn.2.2]
    have hex : ∃ msg, checkOptions cfg = Except.error msg := by
      unfold checkOptions
      split
      · exact ⟨_, rfl⟩
      · rw [hnone]; exact ⟨_, rfl⟩
    obtain ⟨msg, hmsg⟩ := hex
    have hmain := main_of_checkOptions_error GetTrueVSize EstimateLargestEigenvalue cfg msg hmsg
    refine ⟨⟨msg, by rw [hmain]⟩, ?_, ?_⟩
    · intro hord
      have : checkOptions cfg =
          Except.error ("Method " ++ cfg.precondInput ++ " not found") := by
        unfold checkOptions
        rw [if_neg hord, hnone]
      rw [main_of_checkOptions_error GetTrueVSize EstimateLargestEigenvalue cfg _ this]
    · rw [hmain]; simp [MainState.start]
  · intro hmem hord
    simp only [List.mem_cons, List.mem_singleton, List.not_mem_nil, or_false] at hmem
    have hsome : ∃ m, mapInputToPrecond cfg.precondInput = some m := by
      rw [mapInputToPrecond_eq]
      rcases hmem with h | h | h <;> rw [h] <;> simp
    obtain ⟨m, hm⟩ := hsome
    have hok : checkOptions cfg = Except.ok m := by
      unfold checkOptions
      rw [if_neg hord, hm]
    have hmain := main_of_checkOptions_ok GetTrueVSize EstimateLargestEigenvalue cfg m hok
    exact ⟨by rw [hmain.1, hm], hmain.2.1⟩

/-- C4 at the names "mg" (wrong letter case), "" (empty) and "LORS". -/
theorem C4_method_name_accepted_iff_witness :
    (main (fun _ => 0) (fun _ _ _ => 1) { Config.initial with precondInput := "mg" }).exit =
        ExitStatus.aborted "Method mg not found" ∧
      (main (fun _ => 0) (fun _ _ _ => 1)
        { Config.initial with precondInput := "" }).solveAttempted = false ∧
      (main (fun _ => 0) (fun _ _ _ => 1)
        { Config.initial with precondInput := "LORS" }).method = some Method.LORS :=
  ⟨((C4_method_name_accepted_iff (fun _ => 0) (fun _ _ _ => 1)
      { Config.initial with precondInput := "mg" }).2.1 (by decide)).2.1 (by decide),
    ((C4_method_name_accepted_iff (fun _ => 0) (fun _ _ _ => 1)
      { Config.initial with precondInput := "" }).2.1 (by decide)).2.2.2.2.2.2.2.2,
    ((C4_method_name_accepted_iff (fun _ => 0) (fun _ _ _ => 1)
      { Config.initial with precondInput := "LORS" }).2.2 (by decide) (by decide)).1⟩

/-! ## The coarse solver -/

/-- The solver returned by `ConstructCoarseSolver` and the settings of the
algebraic-multigrid object it leaves behind, whatever the state and the
arguments are. -/
theorem ConstructCoarseSolver_result (self : PoissonMultigridOperator) (mesh : Mesh)
    (opr : Operator) (essentialDofs : EssentialDofs) (coarseOrder coarseSteps : Int) :
    (self.ConstructCoarseSolver mesh opr essentialDofs coarseOrder coarseSteps).1 =
        Solver.gmres
          { printLevel := some 0, maxIter := some 2000, relTol := some (1 / 10000),
            absTol := some 0, oper := some opr, preconditioner := none } ∧
      ((self.ConstructCoarseSolver mesh opr essentialDofs coarseOrder coarseSteps).2.amg.map
        fun a => a.maxIter) = some (some 1) ∧
      (self.ConstructCoarseSolver mesh opr essentialDofs coarseOrder coarseSteps).2.useCoarsePCG =
        self.useCoarsePCG := by
  unfold PoissonMultigridOperator.ConstructCoarseSolver
  refine ⟨?_, ?_, ?_⟩
  · simp [GMRESSolver.new, GMRESSolver.SetPrintLevel, GMRESSolver.SetMaxIter,
      GMRESSolver.SetRelTol, GMRESSolver.SetAbsTol, GMRESSolver.SetOperator]
  · simp [HypreBoomerAMG.SetMaxIter]
  · by_cases h1 : (!self.partialAssembly && coarseOrder == 1) = true
    · simp [h1]
    · by_cases h2 : coarseOrder > 1 <;> simp [h1, h2]

/-- C5: `ConstructCoarseSolver`, called on an operator that does not own a LOR
matrix yet, builds the algebraic multigrid from the matrix of the coarse
operator itself exactly when assembly is full and the coarse order is 1 (and
then builds no auxiliary space); otherwise it builds an order-1 space (on the
mesh refined by the coarse order when that order is > 1, on the same mesh
otherwise), assembles its form, and builds the algebraic multigrid from that
matrix; `ownLORMatrix` is set exactly in the second case. -/
theorem C5_coarse_matrix_choice (self : PoissonMultigridOperator) (mesh : Mesh)
    (opr : Operator) (essentialDofs : EssentialDofs) (coarseOrder coarseSteps : Int)
    (hown : self.ownLORMatrix = false) :
    let r := (self.ConstructCoarseSolver mesh opr essentialDofs coarseOrder coarseSteps).2
    let lorSpace : FiniteElementSpace :=
      { mesh := if coarseOrder > 1 then Mesh.lowOrderRefined mesh coarseOrder else mesh,
        fec := { order := 1, dim := mesh.Dimension } }
    let lorForm : BilinearForm :=
      { fespace := lorSpace, assemblyLevel := none,
        integrators :=
          [Integrator.diffusion self.coeff, Integrator.mass Coefficient.minusOmegaSquared],
        precomputedSparsity := true, assembled := true }
    ((r.amg.map fun a => a.matrix) = some (HypreParMatrix.ofOperator opr) ↔
        (self.partialAssembly = false ∧ coarseOrder = 1)) ∧
      ((self.partialAssembly = false ∧ coarseOrder = 1) →
        r.hypreCoarseMat = some (HypreParMatrix.ofOperator opr) ∧
        r.fespace_lor = self.fespace_lor ∧ r.a_pc = self.a_pc ∧
        r.pmesh_lor = self.pmesh_lor) ∧
      (¬ (self.partialAssembly = false ∧ coarseOrder = 1) →
        r.fespace_lor = some lorSpace ∧ r.a_pc = some lorForm ∧
        r.hypreCoarseMat = some (HypreParMatrix.formSystemMatrix lorForm essentialDofs) ∧
        (r.amg.map fun a => a.matrix) =
          some (HypreParMatrix.formSystemMatrix lorForm essentialDofs)) ∧
      (r.ownLORMatrix = true ↔ ¬ (self.partialAssembly = false ∧ coarseOrder = 1)) := by
  intro r lorSpace lorForm
  by_cases hc : self.partialAssembly = false ∧ coarseOrder = 1
  · obtain ⟨hpa, ho⟩ := hc
    simp [r, PoissonMultigridOperator.ConstructCoarseSolver, hpa, ho, hown, HypreBoomerAMG.new,
      HypreBoomerAMG.SetPrintLevel, HypreBoomerAMG.SetMaxIter]
  · have hcond : (!self.partialAssembly && coarseOrder == 1) = false := by
      cases hpa : self.partialAssembly
      · have : coarseOrder ≠ 1 := fun h => hc ⟨hpa, h⟩
        simpa using this
      · simp
    by_cases hgt : coarseOrder > 1
    · simp [r, lorSpace, lorForm, PoissonMultigridOperator.ConstructCoarseSolver, hcond, hgt, hc, HypreBoomerAMG.new,
        HypreBoomerAMG.SetPrintLevel, HypreBoomerAMG.SetMaxIter,
        PoissonMultigridOperator.AddIntegrators,
        BilinearForm.new]
    · simp [r, lorSpace, lorForm, PoissonMultigridOperator.ConstructCoarseSolver, hcond, hgt, hc, HypreBoomerAMG.new,
        HypreBoomerAMG.SetPrintLevel, HypreBoomerAMG.SetMaxIter,
        PoissonMultigridOperator.AddIntegrators,
        BilinearForm.new]

/-- C5 at a partially assembled coarse level of order 2: the auxiliary space is
the order-1 space on the mesh refined by 2, and the matrix is owned. -/
theorem C5_coarse_matrix_choice_witness :
    (PoissonMultigridOperator.init true false false).ownLORMatrix = false ∧
      ((PoissonMultigridOperator.init true false false).ConstructCoarseSolver
        Mesh.cartesianQuad (Operator.identity 4) default 2 2).2.fespace_lor =
        some { mesh := Mesh.lowOrderRefined Mesh.cartesianQuad 2,
               fec := { order := 1, dim := 2 } } ∧
      ((PoissonMultigridOperator.init true false false).ConstructCoarseSolver
        Mesh.cartesianQuad (Operator.identity 4) default 2 2).2.ownLORMatrix = true :=
  ⟨rfl,
    ((C5_coarse_matrix_choice (PoissonMultigridOperator.init true false false)
      Mesh.cartesianQuad (Operator.identity 4) default 2 2 rfl).2.2.1 (by decide)).1,
    (C5_coarse_matrix_choice (PoissonMultigridOperator.init true false false)
      Mesh.cartesianQuad (Operator.identity 4) default 2 2 rfl).2.2.2.mpr (by decide)⟩

/-- C6, the code at the initial option values (`useCoarsePCG = false`,
`coarseSteps = 2`): the coarse solver stored with level 0 is a `GMRESSolver`,
not the algebraic-multigrid object, and the iteration count of the
algebraic-multigrid object is 1, not `coarseSteps`. -/
theorem C6_coarse_solver_ignores_useCoarsePCG :
    Config.initial.useCoarsePCG = false ∧ Config.initial.coarseSteps = 2 ∧
      ∃ op g, (main (fun _ => 0) (fun _ _ _ => 1) Config.initial).solveOperator = some op ∧
        op.useCoarsePCG = false ∧
        op.smoothers.head? = some (Solver.gmres g) ∧
        (∀ amg, op.smoothers.head? ≠ some (Solver.boomerAMG amg)) ∧
        (op.amg.map fun a => a.maxIter) = some (some 1) := by
  have h := main_of_checkOptions_ok (fun _ => 0) (fun _ _ _ => 1) Config.initial Method.MG rfl
  refine ⟨rfl, rfl, _, _, h.2.2.2, rfl, rfl, ?_, rfl⟩
  intro amg habs
  have hhead : (buildSolveOperator (fun _ => 0) (fun _ _ _ => 1) Config.initial Method.MG
      (buildSpaces Config.initial (buildMesh Config.initial)
        { attributesOf := Mesh.cartesianQuad, value := 1 })).smoothers.head? =
      some (Solver.gmres _) := rfl
  rw [hhead] at habs
  exact Solver.noConfusion (Option.some.inj habs)

/-- C7, the code with `--coarsepcg` (`useCoarsePCG = true`): the coarse solver
is a `GMRESSolver` with iteration cap 2000 and relative tolerance 1e-4 on the
coarse operator itself, but no preconditioner is set on it: the
algebraic-multigrid object is built and left unused. -/
theorem C7_coarse_gmres_has_no_preconditioner :
    ∃ op g, (main (fun _ => 0) (fun _ _ _ => 1)
          { Config.initial with useCoarsePCG := true }).solveOperator = some op ∧
      op.useCoarsePCG = true ∧
      op.smoothers.head? = some (Solver.gmres g) ∧
      g.maxIter = some 2000 ∧ g.relTol = some (1 / 10000) ∧
      g.oper = op.operators.head? ∧
      op.amg.isSome = true ∧
      g.preconditioner = none := by
  have h := main_of_checkOptions_ok (fun _ => 0) (fun _ _ _ => 1)
    { Config.initial with useCoarsePCG := true } Method.MG rfl
  exact ⟨_, _, h.2.2.2, rfl, rfl, rfl, rfl, rfl, rfl, rfl⟩

/-! ## The smoother -/

/-- On a partially assembled level, `ConstructSmoother` returns the
additive-Schwarz smoother whose weight is `1 / theta`, with `theta` computed
from the eigenvalue estimate as in the source. -/
theorem ConstructSmoother_partialAssembly (EstimateLargestEigenvalue : PowerMethod)
    (self : PoissonMultigridOperator) (fespace : FiniteElementSpace)
    (solveOperator : Operator) (essentialDofs : EssentialDofs) (chebyshevOrder : Int)
    (hpa : self.partialAssembly = true) :
    self.ConstructSmoother EstimateLargestEigenvalue fespace solveOperator essentialDofs
        chebyshevOrder =
      Solver.additiveSchwarzApproxLOR
        { fespace := fespace
          essentialDofs := essentialDofs
          form := self.forms.getLast?
          coeffDiag := Vector.invSqrtCoeff fespace self.coeff
          LORdiag := Vector.uninitialized fespace
          LORmat :=
            { form :=
                { fespace :=
                    { mesh := Mesh.lowOrderRefined fespace.mesh fespace.GetOrder,
                      fec := { order := 1, dim := fespace.mesh.Dimension } }
                  assemblyLevel := some AssemblyLevel.FULL
                  integrators :=
                    [Integrator.diffusion self.coeff,
                      Integrator.mass Coefficient.minusOmegaSquared]
                  precomputedSparsity := true
                  assembled := true }
              essentialDofs := essentialDofs }
          weight :=
            1 / (1 / 2 *
              (11 / 10 * self.estLargestEigenvalue EstimateLargestEigenvalue fespace
                  solveOperator essentialDofs +
                0 * self.estLargestEigenvalue EstimateLargestEigenvalue fespace
                  solveOperator essentialDofs)) } := by
  simp only [PoissonMultigridOperator.ConstructSmoother, hpa, if_true,
    PoissonMultigridOperator.estLargestEigenvalue, PoissonMultigridOperator.AddIntegrators,
    BilinearForm.new, Mesh.Dimension, List.nil_append]

/-- C8: on a partially assembled level whose eigenvalue estimate `L` is
positive, the weight of the smoother is `1 / theta` with `theta` the midpoint of
`[lower, upper]`, `upper = 1.1 L > L`, `lower = 0`; `theta` is not 0, the weight
is positive, and `weight * L = 20 / 11` (exact arithmetic, over the rationals). -/
theorem C8_smoother_weight (EstimateLargestEigenvalue : PowerMethod)
    (self : PoissonMultigridOperator) (fespace : FiniteElementSpace)
    (solveOperator : Operator) (essentialDofs : EssentialDofs) (chebyshevOrder : Int)
    (hpa : self.partialAssembly = true)
    (hpos : 0 < self.estLargestEigenvalue EstimateLargestEigenvalue fespace solveOperator
      essentialDofs) :
    ∃ (s : AdditiveSchwarzApproxLORSmoother) (L upper lower theta : ℚ),
      self.ConstructSmoother EstimateLargestEigenvalue fespace solveOperator essentialDofs
          chebyshevOrder = Solver.additiveSchwarzApproxLOR s ∧
      L = self.estLargestEigenvalue EstimateLargestEigenvalue fespace solveOperator
          essentialDofs ∧
      upper = 11 / 10 * L ∧ L < upper ∧ lower = 0 ∧
      theta = (lower + upper) / 2 ∧ theta ≠ 0 ∧
      s.weight = 1 / theta ∧ 0 < s.weight ∧ s.weight * L = 20 / 11 := by
  have hs := ConstructSmoother_partialAssembly EstimateLargestEigenvalue self
    fespace solveOperator essentialDofs chebyshevOrder hpa
  generalize self.estLargestEigenvalue EstimateLargestEigenvalue fespace solveOperator
    essentialDofs = L at hpos hs
  have hθ : (0 + 11 / 10 * L) / 2 = 11 / 20 * L := by ring
  have hθ2 : 1 / 2 * (11 / 10 * L + 0 * L) = 11 / 20 * L := by ring
  have hθpos : (0 : ℚ) < 11 / 20 * L := by positivity
  have hLne : L ≠ 0 := ne_of_gt hpos
  refine ⟨_, L, 11 / 10 * L, 0, (0 + 11 / 10 * L) / 2, hs, rfl, rfl, by linarith, rfl, rfl,
    ?_, ?_, ?_, ?_⟩
  · rw [hθ]; exact ne_of_gt hθpos
  · show 1 / (1 / 2 * (11 / 10 * L + 0 * L)) = 1 / ((0 + 11 / 10 * L) / 2)
    rw [hθ, hθ2]
  · show 0 < 1 / (1 / 2 * (11 / 10 * L + 0 * L))
    rw [hθ2]; positivity
  · show 1 / (1 / 2 * (11 / 10 * L + 0 * L)) * L = 20 / 11
    rw [hθ2]; field_simp; ring

/-- C8 on the first refined level of a partially assembled hierarchy, with an
eigenvalue estimate of 2: the weight is `10 / 11`. -/
theorem C8_smoother_weight_witness :
    ∃ (s : AdditiveSchwarzApproxLORSmoother) (L upper lower theta : ℚ),
      (PoissonMultigridOperator.init true false false).ConstructSmoother (fun _ _ _ => 2)
          default (Operator.identity 4) default 3 = Solver.additiveSchwarzApproxLOR s ∧
      L = (PoissonMultigridOperator.init true false false).estLargestEigenvalue
          (fun _ _ _ => 2) default (Operator.identity 4) default ∧
      upper = 11 / 10 * L ∧ L < upper ∧ lower = 0 ∧
      theta = (lower + upper) / 2 ∧ theta ≠ 0 ∧
      s.weight = 1 / theta ∧ 0 < s.weight ∧ s.weight * L = 20 / 11 :=
  C8_smoother_weight (fun _ _ _ => 2) (PoissonMultigridOperator.init true false false)
    default (Operator.identity 4) default 3 rfl
    (by simp [PoissonMultigridOperator.estLargestEigenvalue])


/-! ## The loops -/

/-- One more iteration of a loop over the levels `1, 2, ...`. -/
theorem foldl_range'_succ {σ : Type} (g : σ → Nat → σ) (init : σ) (m : Nat) :
    (List.range' 1 (m + 1)).foldl g init = g ((List.range' 1 m).foldl g init) (1 + m) := by
  rw [List.range'_1_concat, List.foldl_append]
  rfl

/-- A loop `for (int level = 1; level < n; ++level)` with a natural bound `n`. -/
theorem forLevels_natCast {σ : Type} (n : Nat) (body : Nat → σ → σ) (init : σ) :
    forLevels (n : Int) body init =
      (List.range' 1 (n - 1)).foldl (fun st level => body level st) init := by
  unfold forLevels
  have : ((n : Int) - 1).toNat = n - 1 := by omega
  rw [this]

/-- The last element of a map over `range (n + 1)`. -/
theorem getLastD_map_range_succ {α : Type} (f : Nat → α) (n : Nat) (d : α) :
    ((List.range (n + 1)).map f).getLastD d = f n := by
  rw [List.range_succ, List.map_append, List.map_singleton, List.getLastD_concat]

/-- A map over `range (n + 1)`, last element apart. -/
theorem map_range_succ {α : Type} (f : Nat → α) (n : Nat) :
    (List.range (n + 1)).map f = (List.range n).map f ++ [f n] := by
  rw [List.range_succ, List.map_append, List.map_singleton]

/-- The state of `main` after `n` iterations of the geometric loop. -/
theorem geometric_loop (cfg : Config) (pmesh : Mesh) (ess : List EssentialDofs)
    (fec : H1_FECollection) (n : Nat) :
    (List.range' 1 n).foldl (fun st _ => geometricRefinementStep cfg st)
        ({ orders := [cfg.order], feCollectons := [fec], essentialTrueDoFs := ess,
           spaceHierarchy := ParSpaceHierarchy.new { mesh := pmesh, fec := fec } } : Spaces) =
      { orders := List.replicate (n + 1) cfg.order
        feCollectons := [fec]
        essentialTrueDoFs := ess
        spaceHierarchy :=
          { fespaces := (List.range (n + 1)).map (Spec.geometricSpace pmesh fec) } } := by
  induction n with
  | zero => rfl
  | succ n ih =>
    rw [foldl_range'_succ, ih]
    simp only [geometricRefinementStep, ParSpaceHierarchy.AddUniformlyRefinedLevel,
      ParSpaceHierarchy.GetFinestFESpace, getLastD_map_range_succ]
    rw [map_range_succ _ (n + 1), List.replicate_succ' (n + 1)]
    simp only [Spec.geometricSpace, Function.iterate_succ_apply']

/-- The state of `main` after `n` iterations of the order loop that starts
when the geometric loop has made `g` iterations. -/
theorem order_loop (cfg : Config) (pmesh : Mesh) (ess : List EssentialDofs)
    (fec : H1_FECollection) (dim g n : Nat) :
    (List.range' 1 n).foldl (fun st level => orderRefinementStep dim level st)
        ({ orders := List.replicate (g + 1) cfg.order, feCollectons := [fec],
           essentialTrueDoFs := ess,
           spaceHierarchy :=
             { fespaces := (List.range (g + 1)).map (Spec.geometricSpace pmesh fec) } } :
          Spaces) =
      { orders := List.replicate (g + 1) cfg.order ++ (List.range' 1 n).map newOrder
        feCollectons :=
          fec :: (List.range' 1 n).map fun level => { order := newOrder level, dim := dim }
        essentialTrueDoFs := ess
        spaceHierarchy :=
          { fespaces := (List.range (g + 1)).map (Spec.geometricSpace pmesh fec) ++
              (List.range' 1 n).map
                (Spec.orderSpace (Mesh.uniformRefinement^[g] pmesh) dim) } } := by
  induction n with
  | zero => simp
  | succ n ih =>
    rw [foldl_range'_succ, ih]
    have hlast : ((List.range (g + 1)).map (Spec.geometricSpace pmesh fec) ++
        (List.range' 1 n).map (Spec.orderSpace (Mesh.uniformRefinement^[g] pmesh) dim)
        ).getLastD default = 
        ({ mesh := Mesh.uniformRefinement^[g] pmesh,
           fec := (((List.range (g + 1)).map (Spec.geometricSpace pmesh fec) ++
        (List.range' 1 n).map (Spec.orderSpace (Mesh.uniformRefinement^[g] pmesh) dim)
        ).getLastD default).fec } : FiniteElementSpace) := by
      cases n with
      | zero =>
        simp only [List.range'_zero, List.map_nil, List.append_nil, getLastD_map_range_succ]
        rfl
      | succ m =>
        rw [List.range'_1_concat, List.map_append, List.map_singleton, ← List.append_assoc,
          List.getLastD_concat]
        rfl
    simp only [orderRefinementStep, ParSpaceHierarchy.AddOrderRefinedLevel,
      ParSpaceHierarchy.GetFinestFESpace]
    rw [hlast]
    rw [List.range'_1_concat 1 n]
    simp [Spec.orderSpace]

/-- The state of `main` after `n` iterations of the loop that collects the
essential dofs, while `n + 1` does not exceed the number of levels: one mask
per level so far, each computed from the space of its own level. -/
theorem collect_loop (ess_bdr : BdrMarker) (orders : List Int)
    (fecs : List H1_FECollection) (L : List FiniteElementSpace) (n : Nat)
    (hn : n + 1 ≤ L.length) :
    (List.range' 1 n).foldl (fun st level => collectEssentialDofsStep ess_bdr level st)
        ({ orders := orders, feCollectons := fecs,
           essentialTrueDoFs := (L.take 1).map fun s => s.GetEssentialTrueDofs ess_bdr,
           spaceHierarchy := { fespaces := L } } : Spaces) =
      { orders := orders, feCollectons := fecs,
        essentialTrueDoFs := (L.take (n + 1)).map fun s => s.GetEssentialTrueDofs ess_bdr,
        spaceHierarchy := { fespaces := L } } := by
  induction n with
  | zero => rfl
  | succ n ih =>
    rw [foldl_range'_succ, ih (by omega)]
    have hlt : n + 1 < L.length := by omega
    have hget : L.getD (1 + n) default = L[n + 1] := by
      rw [Nat.add_comm 1 n]; exact List.getD_eq_getElem L default hlt
    simp only [collectEssentialDofsStep, ParSpaceHierarchy.GetFESpaceAtLevel, hget]
    rw [List.take_succ (n := n + 1), List.getElem?_eq_getElem hlt]
    simp only [Option.toList, List.map_append, List.map_cons, List.map_nil]

/-- The hierarchy that `main` builds, in closed form: the orders, the
collections, the spaces and the masks of the levels. -/
theorem buildSpaces_eq (cfg : Config) (pmesh : Mesh) (ess_bdr : BdrMarker) :
    buildSpaces cfg pmesh ess_bdr =
      { orders := Spec.levelOrders cfg
        feCollectons :=
          { order := cfg.order, dim := pmesh.Dimension } ::
            (List.range' 1 (Spec.orderSteps cfg)).map fun level =>
              { order := newOrder level, dim := pmesh.Dimension }
        essentialTrueDoFs :=
          (Spec.levelSpaces cfg pmesh).map fun s => s.GetEssentialTrueDofs ess_bdr
        spaceHierarchy := { fespaces := Spec.levelSpaces cfg pmesh } } := by
  unfold buildSpaces
  simp only [forLevels]
  rw [geometric_loop cfg pmesh _ _ (cfg.h_levels - 1).toNat,
    order_loop cfg pmesh _ _ pmesh.Dimension (cfg.h_levels - 1).toNat (cfg.o_levels - 1).toNat]
  simp only [ParSpaceHierarchy.GetNumLevels]
  have hlen : (((List.range ((cfg.h_levels - 1).toNat + 1)).map
        (Spec.geometricSpace pmesh { order := cfg.order, dim := pmesh.Dimension }) ++
      (List.range' 1 (cfg.o_levels - 1).toNat).map
        (Spec.orderSpace (Mesh.uniformRefinement^[(cfg.h_levels - 1).toNat] pmesh)
          pmesh.Dimension)).length : Int) - 1 =
      (((cfg.h_levels - 1).toNat + (cfg.o_levels - 1).toNat : Nat) : Int) := by
    simp only [List.length_append, List.length_map, List.length_range, List.length_range']
    omega
  rw [hlen, Int.toNat_ofNat]
  have h1 : [FiniteElementSpace.GetEssentialTrueDofs
        { mesh := pmesh, fec := { order := cfg.order, dim := pmesh.Dimension } } ess_bdr] =
      (((List.range ((cfg.h_levels - 1).toNat + 1)).map
        (Spec.geometricSpace pmesh { order := cfg.order, dim := pmesh.Dimension }) ++
      (List.range' 1 (cfg.o_levels - 1).toNat).map
        (Spec.orderSpace (Mesh.uniformRefinement^[(cfg.h_levels - 1).toNat] pmesh)
          pmesh.Dimension)).take 1).map fun s => s.GetEssentialTrueDofs ess_bdr := by
    rw [List.range_succ_eq_map]
    rfl
  have hlen2 : ((List.range ((cfg.h_levels - 1).toNat + 1)).map
        (Spec.geometricSpace pmesh { order := cfg.order, dim := pmesh.Dimension }) ++
      (List.range' 1 (cfg.o_levels - 1).toNat).map
        (Spec.orderSpace (Mesh.uniformRefinement^[(cfg.h_levels - 1).toNat] pmesh)
          pmesh.Dimension)).length =
      (cfg.h_levels - 1).toNat + (cfg.o_levels - 1).toNat + 1 := by
    simp only [List.length_append, List.length_map, List.length_range, List.length_range']
    omega
  rw [h1, collect_loop ess_bdr _ _ _ _ (le_of_eq hlen2.symm)]
  rw [List.take_of_length_le (le_of_eq hlen2)]
  rfl

/-! ## The levels of the multigrid operator -/

/-- Reading a map over the levels `1, ..., n` at position `j`. -/
theorem getElem?_map_range'_one {α : Type} (f : Nat → α) (n j : Nat) (h : j < n) :
    ((List.range' 1 n).map f)[j]? = some (f (j + 1)) := by
  rw [List.getElem?_map, List.getElem?_range' 1 1 h]
  simp [Nat.add_comm]

/-- What `ConstructOperator` returns and what it changes. -/
theorem ConstructOperator_eq (self : PoissonMultigridOperator)
    (fespace : FiniteElementSpace) (essentialDofs : EssentialDofs) :
    (self.ConstructOperator fespace essentialDofs).1 =
        Spec.levelOperator self.partialAssembly self.coeff fespace essentialDofs ∧
      (self.ConstructOperator fespace essentialDofs).2.partialAssembly =
        self.partialAssembly ∧
      (self.ConstructOperator fespace essentialDofs).2.coeff = self.coeff ∧
      (self.ConstructOperator fespace essentialDofs).2.toMultigridOperator =
        self.toMultigridOperator ∧
      (self.ConstructOperator fespace essentialDofs).2.useCoarsePCG = self.useCoarsePCG := by
  cases hpa : self.partialAssembly <;>
    simp [PoissonMultigridOperator.ConstructOperator, Spec.levelOperator, hpa,
      PoissonMultigridOperator.AddIntegrators, BilinearForm.new]

/-- What `AddLevel` appends: one operator on the fine space, one smoother, and
the transfer operator from the coarse space to the fine space. -/
theorem AddLevel_fields (pm : PowerMethod) (self : PoissonMultigridOperator)
    (lFEspace hFEspace : FiniteElementSpace) (essentialDofs : EssentialDofs)
    (chebyshevOrder : Int) :
    (self.AddLevel pm lFEspace hFEspace essentialDofs chebyshevOrder).partialAssembly =
        self.partialAssembly ∧
      (self.AddLevel pm lFEspace hFEspace essentialDofs chebyshevOrder).coeff = self.coeff ∧
      (self.AddLevel pm lFEspace hFEspace essentialDofs chebyshevOrder).operators =
        self.operators ++
          [Spec.levelOperator self.partialAssembly self.coeff hFEspace essentialDofs] ∧
      (self.AddLevel pm lFEspace hFEspace essentialDofs chebyshevOrder).prolongations =
        self.prolongations ++ [Operator.trueTransfer lFEspace hFEspace] ∧
      (self.AddLevel pm lFEspace hFEspace essentialDofs chebyshevOrder).smoothers.length =
        self.smoothers.length + 1 := by
  obtain ⟨h1, h2, h3, h4, -⟩ := ConstructOperator_eq self hFEspace essentialDofs
  simp only [PoissonMultigridOperator.AddLevel, MultigridOperator.AddLevel, h1, h2, h3, h4,
    List.length_append, List.length_singleton, and_self]

/-- What `ConstructCoarseSolver` leaves unchanged. -/
theorem ConstructCoarseSolver_preserves (self : PoissonMultigridOperator) (mesh : Mesh)
    (opr : Operator) (essentialDofs : EssentialDofs) (coarseOrder coarseSteps : Int) :
    (self.ConstructCoarseSolver mesh opr essentialDofs coarseOrder coarseSteps).2.partialAssembly =
        self.partialAssembly ∧
      (self.ConstructCoarseSolver mesh opr essentialDofs coarseOrder coarseSteps).2.coeff =
        self.coeff ∧
      (self.ConstructCoarseSolver mesh opr essentialDofs coarseOrder
        coarseSteps).2.toMultigridOperator = self.toMultigridOperator ∧
      (self.ConstructCoarseSolver mesh opr essentialDofs coarseOrder coarseSteps).2.forms =
        self.forms := by
  unfold PoissonMultigridOperator.ConstructCoarseSolver
  by_cases h1 : (!self.partialAssembly && coarseOrder == 1) = true
  · simp [h1]
  · by_cases h2 : coarseOrder > 1 <;> simp [h1, h2]

/-- What the constructor leaves: the coarsest level alone. -/
theorem new_fields (mesh : Mesh) (fespace : FiniteElementSpace)
    (essentialDofs : EssentialDofs) (coarseOrder : Int) (partialAssembly_ : Bool)
    (coarseSteps : Int) (useCoarsePCG_ jump : Bool) :
    (PoissonMultigridOperator.new mesh fespace essentialDofs coarseOrder partialAssembly_
        coarseSteps useCoarsePCG_ jump).partialAssembly = partialAssembly_ ∧
      (PoissonMultigridOperator.new mesh fespace essentialDofs coarseOrder partialAssembly_
        coarseSteps useCoarsePCG_ jump).operators =
        [Spec.levelOperator partialAssembly_
          (if jump then Coefficient.affineX0 5 1 else Coefficient.constant 1)
          fespace essentialDofs] ∧
      (PoissonMultigridOperator.new mesh fespace essentialDofs coarseOrder partialAssembly_
        coarseSteps useCoarsePCG_ jump).prolongations = [] ∧
      (PoissonMultigridOperator.new mesh fespace essentialDofs coarseOrder partialAssembly_
        coarseSteps useCoarsePCG_ jump).smoothers.length = 1 := by
  have p1 := fun s m o e c k => (ConstructCoarseSolver_preserves s m o e c k).1
  have p3 := fun s m o e c k => (ConstructCoarseSolver_preserves s m o e c k).2.2.1
  have q1 := fun s f e => (ConstructOperator_eq s f e).1
  have q2 := fun s f e => (ConstructOperator_eq s f e).2.1
  have q4 := fun s f e => (ConstructOperator_eq s f e).2.2.2.1
  simp only [PoissonMultigridOperator.new, MultigridOperator.AddCoarsestLevel, p1, p3, q1, q2,
    q4]
  simp [PoissonMultigridOperator.init, MultigridOperator.new]

/-- The multigrid operator after `n` iterations of the loop of `AddLevel` calls
that starts from `s`, for the spaces `F` and the masks `E` of the levels. -/
theorem addLevel_loop (pm : PowerMethod) (F : Nat → FiniteElementSpace)
    (E : Nat → EssentialDofs) (chebyshevOrder : Int) (s : PoissonMultigridOperator)
    (n : Nat) :
    ((List.range' 1 n).foldl
          (fun op level => op.AddLevel pm (F (level - 1)) (F level) (E level) chebyshevOrder)
          s).partialAssembly = s.partialAssembly ∧
      ((List.range' 1 n).foldl
          (fun op level => op.AddLevel pm (F (level - 1)) (F level) (E level) chebyshevOrder)
          s).coeff = s.coeff ∧
      ((List.range' 1 n).foldl
          (fun op level => op.AddLevel pm (F (level - 1)) (F level) (E level) chebyshevOrder)
          s).operators =
        s.operators ++ (List.range' 1 n).map
          (fun level => Spec.levelOperator s.partialAssembly s.coeff (F level) (E level)) ∧
      ((List.range' 1 n).foldl
          (fun op level => op.AddLevel pm (F (level - 1)) (F level) (E level) chebyshevOrder)
          s).prolongations =
        s.prolongations ++ (List.range' 1 n).map
          (fun level => Operator.trueTransfer (F (level - 1)) (F level)) ∧
      ((List.range' 1 n).foldl
          (fun op level => op.AddLevel pm (F (level - 1)) (F level) (E level) chebyshevOrder)
          s).smoothers.length = s.smoothers.length + n := by
  induction n with
  | zero => simp
  | succ n ih =>
    obtain ⟨i1, i2, i3, i4, i5⟩ := ih
    rw [foldl_range'_succ]
    obtain ⟨a1, a2, a3, a4, a5⟩ := AddLevel_fields pm
      ((List.range' 1 n).foldl
          (fun op level => op.AddLevel pm (F (level - 1)) (F level) (E level) chebyshevOrder)
          s) (F (1 + n - 1)) (F (1 + n)) (E (1 + n)) chebyshevOrder
    rw [a1, a2, a3, a4, a5, i1, i2, i3, i4, i5, List.range'_1_concat]
    simp only [List.map_append, List.map_singleton, List.append_assoc, true_and]
    omega

/-- The levels of the multigrid operator that `main` builds with the method MG:
one operator per space of the hierarchy, each on the space of its level, and
one transfer operator per level above the coarsest, from the space of the
level below to the space of the level. -/
theorem buildSolveOperator_MG (tvs : FiniteElementSpace → Nat) (pm : PowerMethod)
    (cfg : Config) (sp : Spaces) :
    (buildSolveOperator tvs pm cfg Method.MG sp).operators =
        (Spec.levelOperator cfg.partialAssembly
            (if cfg.jump then Coefficient.affineX0 5 1 else Coefficient.constant 1)
            (sp.spaceHierarchy.GetFESpaceAtLevel 0) (sp.essentialTrueDoFs.getD 0 default)) ::
          (List.range' 1 (sp.spaceHierarchy.GetNumLevels - 1)).map
            (fun level => Spec.levelOperator cfg.partialAssembly
              (if cfg.jump then Coefficient.affineX0 5 1 else Coefficient.constant 1)
              (sp.spaceHierarchy.GetFESpaceAtLevel level)
              (sp.essentialTrueDoFs.getD level default)) ∧
      (buildSolveOperator tvs pm cfg Method.MG sp).prolongations =
        (List.range' 1 (sp.spaceHierarchy.GetNumLevels - 1)).map
          (fun level => Operator.trueTransfer
            (sp.spaceHierarchy.GetFESpaceAtLevel (level - 1))
            (sp.spaceHierarchy.GetFESpaceAtLevel level)) ∧
      (buildSolveOperator tvs pm cfg Method.MG sp).smoothers.length =
        1 + (sp.spaceHierarchy.GetNumLevels - 1) := by
  have hm : ¬ (Method.MG = Method.LOR ∨ Method.MG = Method.LORS) := by decide
  unfold buildSolveOperator
  rw [if_neg hm, forLevels_natCast]
  obtain ⟨n1, n2, n3, n4⟩ := new_fields (sp.spaceHierarchy.GetFESpaceAtLevel 0).mesh
    (sp.spaceHierarchy.GetFESpaceAtLevel 0) (sp.essentialTrueDoFs.getD 0 default)
    (sp.orders.getD 0 default) cfg.partialAssembly cfg.coarseSteps cfg.useCoarsePCG cfg.jump
  obtain ⟨-, -, l3, l4, l5⟩ := addLevel_loop pm sp.spaceHierarchy.GetFESpaceAtLevel
    (fun level => sp.essentialTrueDoFs.getD level default) cfg.chebyshevOrder
    (PoissonMultigridOperator.new (sp.spaceHierarchy.GetFESpaceAtLevel 0).mesh
      (sp.spaceHierarchy.GetFESpaceAtLevel 0) (sp.essentialTrueDoFs.getD 0 default)
      (sp.orders.getD 0 default) cfg.partialAssembly cfg.coarseSteps cfg.useCoarsePCG cfg.jump)
    (sp.spaceHierarchy.GetNumLevels - 1)
  have hcoeff : (PoissonMultigridOperator.new (sp.spaceHierarchy.GetFESpaceAtLevel 0).mesh
      (sp.spaceHierarchy.GetFESpaceAtLevel 0) (sp.essentialTrueDoFs.getD 0 default)
      (sp.orders.getD 0 default) cfg.partialAssembly cfg.coarseSteps cfg.useCoarsePCG
      cfg.jump).coeff =
      (if cfg.jump then Coefficient.affineX0 5 1 else Coefficient.constant 1) := by
    have q3 := fun s f e => (ConstructOperator_eq s f e).2.2.1
    have p2 := fun s m o e c k => (ConstructCoarseSolver_preserves s m o e c k).2.1
    simp only [PoissonMultigridOperator.new, p2, q3]
    rfl
  rw [n1, n2, hcoeff] at l3
  rw [n3] at l4
  rw [n4] at l5
  refine ⟨?_, ?_, l5⟩
  · simpa using l3
  · simpa using l4

/-- The operator of a level is the system matrix of a form on the space of the
level, with the mask of the level. -/
theorem levelOperator_on_space (partialAssembly : Bool) (coeff : Coefficient)
    (fespace : FiniteElementSpace) (essentialDofs : EssentialDofs) :
    ∃ form type,
      Spec.levelOperator partialAssembly coeff fespace essentialDofs =
        Operator.systemMatrix form essentialDofs type ∧
      form.fespace = fespace := by
  unfold Spec.levelOperator
  exact ⟨_, _, rfl, rfl⟩

/-- The number of levels of the hierarchy that `main` builds. -/
theorem buildSpaces_numLevels (cfg : Config) (pmesh : Mesh) (ess_bdr : BdrMarker) :
    (buildSpaces cfg pmesh ess_bdr).spaceHierarchy.GetNumLevels =
      1 + Spec.geometricSteps cfg + Spec.orderSteps cfg := by
  rw [buildSpaces_eq]
  simp only [ParSpaceHierarchy.GetNumLevels, Spec.levelSpaces, List.length_append,
    List.length_map, List.length_range, List.length_range']
  omega

/-- C1: in the hierarchy that `main` builds with the method MG, the multigrid
operator has one level per space, and for every level `k >= 1` the transfer
operator stored with level `k` is `TrueTransferOperator(space k-1, space k)` and
the operator of level `k` is the system matrix of a form on space `k`; so the
input dimension of the transfer operator is the unknown count of space `k-1`
and its output dimension is the width of the operator of level `k`. -/
theorem C1_transfer_operator_dimensions (GetTrueVSize : FiniteElementSpace → Nat)
    (EstimateLargestEigenvalue : PowerMethod) (cfg : Config)
    (hMG : checkOptions cfg = Except.ok Method.MG) :
    ∃ (op : PoissonMultigridOperator) (sp : Spaces),
      (main GetTrueVSize EstimateLargestEigenvalue cfg).solveOperator = some op ∧
      (main GetTrueVSize EstimateLargestEigenvalue cfg).spaces = some sp ∧
      op.NumLevels = sp.spaceHierarchy.GetNumLevels ∧
      ∀ k : Nat, 1 ≤ k → k < op.NumLevels →
        ∃ (lFESpace hFESpace : FiniteElementSpace) (form : BilinearForm)
          (essentialDofs : EssentialDofs) (type : OperatorType),
          sp.spaceHierarchy.fespaces[k - 1]? = some lFESpace ∧
          sp.spaceHierarchy.fespaces[k]? = some hFESpace ∧
          op.GetProlongationAtLevel k = some (Operator.trueTransfer lFESpace hFESpace) ∧
          op.operators[k]? = some (Operator.systemMatrix form essentialDofs type) ∧
          form.fespace = hFESpace ∧
          (Operator.trueTransfer lFESpace hFESpace).Width GetTrueVSize =
            GetTrueVSize lFESpace ∧
          (Operator.trueTransfer lFESpace hFESpace).Height GetTrueVSize =
            (Operator.systemMatrix form essentialDofs type).Width GetTrueVSize := by
  obtain ⟨-, -, hsp, hop⟩ :=
    main_of_checkOptions_ok GetTrueVSize EstimateLargestEigenvalue cfg Method.MG hMG
  have hpos := buildSpaces_numLevels cfg (buildMesh cfg)
    { attributesOf := Mesh.cartesianQuad, value := 1 }
  refine ⟨_, _, hop, hsp, ?_, ?_⟩
  all_goals
    generalize buildSpaces cfg (buildMesh cfg)
      { attributesOf := Mesh.cartesianQuad, value := 1 } = sp at hpos
    obtain ⟨ho, hp, -⟩ := buildSolveOperator_MG GetTrueVSize EstimateLargestEigenvalue cfg sp
  · simp only [MultigridOperator.NumLevels, ho, List.length_cons, List.length_map,
      List.length_range']
    omega
  · intro k hk1 hk
    have hkL : k < sp.spaceHierarchy.GetNumLevels := by
      simp only [MultigridOperator.NumLevels, ho, List.length_cons, List.length_map,
        List.length_range'] at hk
      omega
    obtain ⟨j, rfl⟩ : ∃ j, k = j + 1 := ⟨k - 1, by omega⟩
    have hj : j < sp.spaceHierarchy.GetNumLevels - 1 := by omega
    have hlo : j < sp.spaceHierarchy.fespaces.length := by
      simp only [ParSpaceHierarchy.GetNumLevels] at hkL; omega
    have hhi : j + 1 < sp.spaceHierarchy.fespaces.length := hkL
    have hFlo : sp.spaceHierarchy.GetFESpaceAtLevel (j + 1 - 1) =
        sp.spaceHierarchy.fespaces[j] := by
      simp only [ParSpaceHierarchy.GetFESpaceAtLevel, Nat.add_sub_cancel]
      exact List.getD_eq_getElem _ default hlo
    have hFhi : sp.spaceHierarchy.GetFESpaceAtLevel (j + 1) =
        sp.spaceHierarchy.fespaces[j + 1] := by
      simp only [ParSpaceHierarchy.GetFESpaceAtLevel]
      exact List.getD_eq_getElem _ default hhi
    obtain ⟨form, type, hform, hfes⟩ := levelOperator_on_space cfg.partialAssembly
      (if cfg.jump then Coefficient.affineX0 5 1 else Coefficient.constant 1)
      sp.spaceHierarchy.fespaces[j + 1] (sp.essentialTrueDoFs.getD (j + 1) default)
    refine ⟨sp.spaceHierarchy.fespaces[j], sp.spaceHierarchy.fespaces[j + 1], form,
      sp.essentialTrueDoFs.getD (j + 1) default, type, ?_, ?_, ?_, ?_, hfes, rfl, ?_⟩
    · rw [Nat.add_sub_cancel]; exact List.getElem?_eq_getElem hlo
    · exact List.getElem?_eq_getElem hhi
    · show (buildSolveOperator GetTrueVSize EstimateLargestEigenvalue cfg Method.MG
        sp).prolongations[j]? = _
      rw [hp, getElem?_map_range'_one _ _ _ hj, hFlo, hFhi]
    · rw [ho, List.getElem?_cons_succ, getElem?_map_range'_one _ _ _ hj, hFhi, hform]
    · show GetTrueVSize sp.spaceHierarchy.fespaces[j + 1] = GetTrueVSize form.fespace
      rw [hfes]

/-- C1 at the initial option values (method MG, two geometric levels): the
transfer operator stored with level 1 goes from space 0 to space 1. -/
theorem C1_transfer_operator_dimensions_witness :
    checkOptions Config.initial = Except.ok Method.MG ∧
      ∃ (op : PoissonMultigridOperator) (sp : Spaces),
        (main (fun _ => 0) (fun _ _ _ => 1) Config.initial).solveOperator = some op ∧
        (main (fun _ => 0) (fun _ _ _ => 1) Config.initial).spaces = some sp ∧
        op.NumLevels = sp.spaceHierarchy.GetNumLevels ∧
        ∃ lFESpace hFESpace : FiniteElementSpace,
          sp.spaceHierarchy.fespaces[0]? = some lFESpace ∧
          sp.spaceHierarchy.fespaces[1]? = some hFESpace ∧
          op.GetProlongationAtLevel 1 = some (Operator.trueTransfer lFESpace hFESpace) := by
  refine ⟨rfl, ?_⟩
  obtain ⟨op, sp, h1, h2, h3, h4⟩ :=
    C1_transfer_operator_dimensions (fun _ => 0) (fun _ _ _ => 1) Config.initial rfl
  have hn : sp.spaceHierarchy.GetNumLevels = 2 := by
    have hsp : (main (fun _ => 0) (fun _ _ _ => 1) Config.initial).spaces =
        some (buildSpaces Config.initial (buildMesh Config.initial)
          { attributesOf := Mesh.cartesianQuad, value := 1 }) := rfl
    rw [hsp] at h2
    rw [← Option.some.inj h2]
    rfl
  obtain ⟨l, h, -, -, -, a, b, c, -⟩ := h4 1 (le_refl 1) (by omega)
  exact ⟨op, sp, h1, h2, h3, l, h, a, b, c⟩

/-! ## The number and the order of the levels -/

/-- C9: with the method MG and a configuration that passes the checks, each
refinement step appends exactly one level: the spaces, the orders, the masks,
the operators and the smoothers all have
`1 + max(h_levels - 1, 0) + max(o_levels - 1, 0)` entries (and there is one
transfer operator less); the spaces are the base space and the geometric
levels, in this order, followed by the order levels; and the mask of each level
is computed from the same marker `ess_bdr` on the space of that level. -/
theorem C9_one_level_per_refinement_step (GetTrueVSize : FiniteElementSpace → Nat)
    (EstimateLargestEigenvalue : PowerMethod) (cfg : Config)
    (hMG : checkOptions cfg = Except.ok Method.MG) :
    ∃ (op : PoissonMultigridOperator) (sp : Spaces),
      (main GetTrueVSize EstimateLargestEigenvalue cfg).solveOperator = some op ∧
      (main GetTrueVSize EstimateLargestEigenvalue cfg).spaces = some sp ∧
      (sp.spaceHierarchy.fespaces.length : Int) =
        1 + max (cfg.h_levels - 1) 0 + max (cfg.o_levels - 1) 0 ∧
      sp.orders.length = sp.spaceHierarchy.fespaces.length ∧
      sp.essentialTrueDoFs.length = sp.spaceHierarchy.fespaces.length ∧
      op.operators.length = sp.spaceHierarchy.fespaces.length ∧
      op.smoothers.length = sp.spaceHierarchy.fespaces.length ∧
      op.prolongations.length + 1 = sp.spaceHierarchy.fespaces.length ∧
      sp.spaceHierarchy.fespaces =
        (List.range ((cfg.h_levels - 1).toNat + 1)).map
            (Spec.geometricSpace (buildMesh cfg)
              { order := cfg.order, dim := (buildMesh cfg).Dimension }) ++
          (List.range' 1 (cfg.o_levels - 1).toNat).map
            (Spec.orderSpace (Mesh.uniformRefinement^[(cfg.h_levels - 1).toNat] (buildMesh cfg))
              (buildMesh cfg).Dimension) ∧
      sp.essentialTrueDoFs =
        sp.spaceHierarchy.fespaces.map fun fespace =>
          fespace.GetEssentialTrueDofs { attributesOf := Mesh.cartesianQuad, value := 1 } := by
  obtain ⟨-, -, hsp, hop⟩ :=
    main_of_checkOptions_ok GetTrueVSize EstimateLargestEigenvalue cfg Method.MG hMG
  have hnum := buildSpaces_numLevels cfg (buildMesh cfg)
    { attributesOf := Mesh.cartesianQuad, value := 1 }
  obtain ⟨ho, hp, hs⟩ := buildSolveOperator_MG GetTrueVSize EstimateLargestEigenvalue cfg
    (buildSpaces cfg (buildMesh cfg) { attributesOf := Mesh.cartesianQuad, value := 1 })
  refine ⟨_, _, hop, hsp, ?_, ?_, ?_, ?_, ?_, ?_, ?_, ?_⟩
  · have : (buildSpaces cfg (buildMesh cfg)
        { attributesOf := Mesh.cartesianQuad, value := 1 }).spaceHierarchy.fespaces.length =
        1 + Spec.geometricSteps cfg + Spec.orderSteps cfg := hnum
    rw [this]
    simp only [Spec.geometricSteps, Spec.orderSteps]
    omega
  · rw [buildSpaces_eq]
    simp [Spec.levelOrders, Spec.levelSpaces]
  · rw [buildSpaces_eq]
    simp
  · rw [ho]
    simp only [List.length_cons, List.length_map, List.length_range']
    simp only [ParSpaceHierarchy.GetNumLevels] at hnum ⊢
    omega
  · rw [hs]
    simp only [ParSpaceHierarchy.GetNumLevels] at hnum ⊢
    omega
  · rw [hp]
    simp only [List.length_map, List.length_range']
    simp only [ParSpaceHierarchy.GetNumLevels] at hnum ⊢
    omega
  · rw [buildSpaces_eq]
    rfl
  · rw [buildSpaces_eq]

/-- C9 at `-hl 2 -ol 2` (method MG, base order 1): three levels. -/
theorem C9_one_level_per_refinement_step_witness :
    checkOptions { Config.initial with h_levels := 2, o_levels := 2 } = Except.ok Method.MG ∧
      ∃ (op : PoissonMultigridOperator) (sp : Spaces),
        (main (fun _ => 0) (fun _ _ _ => 1)
          { Config.initial with h_levels := 2, o_levels := 2 }).solveOperator = some op ∧
        (main (fun _ => 0) (fun _ _ _ => 1)
          { Config.initial with h_levels := 2, o_levels := 2 }).spaces = some sp ∧
        (sp.spaceHierarchy.fespaces.length : Int) = 3 ∧
        sp.orders.length = sp.spaceHierarchy.fespaces.length ∧
        sp.essentialTrueDoFs.length = sp.spaceHierarchy.fespaces.length ∧
        op.operators.length = sp.spaceHierarchy.fespaces.length ∧
        op.smoothers.length = sp.spaceHierarchy.fespaces.length ∧
        op.prolongations.length + 1 = sp.spaceHierarchy.fespaces.length := by
  refine ⟨rfl, ?_⟩
  obtain ⟨op, sp, h1, h2, h3, h4, h5, h6, h7, h8, -, -⟩ :=
    C9_one_level_per_refinement_step (fun _ => 0) (fun _ _ _ => 1)
      { Config.initial with h_levels := 2, o_levels := 2 } rfl
  exact ⟨op, sp, h1, h2, h3, h4, h5, h6, h7, h8⟩

/-- The conversion to `int` is exact on the powers of two up to `2 ^ 30`. -/
theorem newOrder_eq_pow (level : Nat) (h : level ≤ 30) : newOrder level = 2 ^ level := by
  have hlt : 2 ^ level < 2 ^ 31 := Nat.pow_lt_pow_right (by decide) (by omega)
  unfold newOrder doubleToInt
  rw [if_pos hlt]
  push_cast
  rfl

/-- Reading the list `1, ..., 1, 2, 4, ..., 2 ^ O` (`H` ones) below `H`. -/
theorem orderList_getElem?_lt (H O k : Nat) (hk : k < H) :
    (List.replicate H (1 : Int) ++ (List.range' 1 O).map fun l => (2 : Int) ^ l)[k]? =
      some 1 := by
  rw [List.getElem?_append_left (by simpa using hk)]
  simp [hk]

/-- Reading the list `1, ..., 1, 2, 4, ..., 2 ^ O` (`H` ones) from `H` on. -/
theorem orderList_getElem?_ge (H O k : Nat) (hk : H ≤ k) (hk2 : k < H + O) :
    (List.replicate H (1 : Int) ++ (List.range' 1 O).map fun l => (2 : Int) ^ l)[k]? =
      some (2 ^ (k - H + 1)) := by
  rw [List.getElem?_append_right (by simpa using hk), List.length_replicate,
    getElem?_map_range'_one _ _ _ (by omega)]

/-- C10, amended: for base order 1, `h_levels >= 1` and `1 <= o_levels <= 31`,
the orders of the levels that `main` builds are `h_levels` copies of 1 followed
by `2, 4, ..., 2 ^ (o_levels - 1)`; every geometric level has the order of the
level below it and every order level has twice the order of the level below. -/
theorem C10_orders_double_per_order_level (GetTrueVSize : FiniteElementSpace → Nat)
    (EstimateLargestEigenvalue : PowerMethod) (cfg : Config) (method : Method)
    (hok : checkOptions cfg = Except.ok method)
    (horder : cfg.order = 1) (hh : 1 ≤ cfg.h_levels)
    (ho : 1 ≤ cfg.o_levels) (ho31 : cfg.o_levels ≤ 31) :
    ∃ sp : Spaces,
      (main GetTrueVSize EstimateLargestEigenvalue cfg).spaces = some sp ∧
      sp.orders =
        List.replicate cfg.h_levels.toNat (1 : Int) ++
          (List.range' 1 (cfg.o_levels.toNat - 1)).map (fun l => (2 : Int) ^ l) ∧
      ∀ k : Nat, 1 ≤ k → k < sp.orders.length →
        (k < cfg.h_levels.toNat → sp.orders[k]? = sp.orders[k - 1]?) ∧
        (cfg.h_levels.toNat ≤ k →
          ∃ a : Int, sp.orders[k - 1]? = some a ∧ sp.orders[k]? = some (2 * a)) := by
  obtain ⟨-, -, hsp, -⟩ :=
    main_of_checkOptions_ok GetTrueVSize EstimateLargestEigenvalue cfg method hok
  have hH : Spec.geometricSteps cfg + 1 = cfg.h_levels.toNat := by
    simp only [Spec.geometricSteps]; omega
  have hO : Spec.orderSteps cfg = cfg.o_levels.toNat - 1 := by
    simp only [Spec.orderSteps]; omega
  have hO30 : cfg.o_levels.toNat - 1 ≤ 30 := by omega
  have hH1 : 1 ≤ cfg.h_levels.toNat := by omega
  have horders : (buildSpaces cfg (buildMesh cfg)
      { attributesOf := Mesh.cartesianQuad, value := 1 }).orders =
      List.replicate cfg.h_levels.toNat (1 : Int) ++
        (List.range' 1 (cfg.o_levels.toNat - 1)).map (fun l => (2 : Int) ^ l) := by
    rw [buildSpaces_eq]
    simp only [Spec.levelOrders, hH, hO, horder]
    congr 1
    apply List.map_congr_left
    intro l hl
    rw [List.mem_range'_1] at hl
    exact newOrder_eq_pow l (by omega)
  refine ⟨_, hsp, horders, ?_⟩
  intro k hk1 hk
  rw [horders] at hk ⊢
  simp only [List.length_append, List.length_replicate, List.length_map,
    List.length_range'] at hk
  generalize cfg.h_levels.toNat = H at hH1 hk ⊢
  generalize cfg.o_levels.toNat - 1 = O at hk ⊢
  refine ⟨fun hlt => ?_, fun hge => ?_⟩
  · rw [orderList_getElem?_lt H O k hlt, orderList_getElem?_lt H O (k - 1) (by omega)]
  · rw [orderList_getElem?_ge H O k hge hk]
    by_cases hkH : k = H
    · refine ⟨1, orderList_getElem?_lt H O (k - 1) (by omega), ?_⟩
      rw [hkH]; simp
    · refine ⟨2 ^ (k - 1 - H + 1), orderList_getElem?_ge H O (k - 1) (by omega) (by omega), ?_⟩
      have : k - H + 1 = (k - 1 - H + 1) + 1 := by omega
      rw [this, pow_succ]
      ring_nf

/-- C10, amended, at `-hl 2 -ol 3`: the orders are 1, 1, 2, 4. -/
theorem C10_orders_double_per_order_level_witness :
    ∃ sp : Spaces,
      (main (fun _ => 0) (fun _ _ _ => 1)
        { Config.initial with h_levels := 2, o_levels := 3 }).spaces = some sp ∧
      sp.orders = [1, 1, 2, 4] := by
  obtain ⟨sp, h1, h2, -⟩ :=
    C10_orders_double_per_order_level (fun _ => 0) (fun _ _ _ => 1)
      { Config.initial with h_levels := 2, o_levels := 3 } Method.MG rfl rfl
      (by decide) (by decide) (by decide)
  exact ⟨sp, h1, by rw [h2]; rfl⟩

/-- C10 fails as stated: with `-hl 1 -ol 32` and base order 1 the order stored
for the last level is `INT_MIN`, not `2 ^ 31` (which no `int` holds), so it is
not twice the order `2 ^ 30` of the level below, and the list of the orders is
not `1, 2, 4, ..., 2 ^ 31`. -/
theorem C10_counterexample_32_order_levels :
    ∃ sp : Spaces,
      (main (fun _ => 0) (fun _ _ _ => 1)
        { Config.initial with h_levels := 1, o_levels := 32 }).spaces = some sp ∧
      sp.orders[30]? = some (2 ^ 30) ∧
      sp.orders[31]? = some (-(2 ^ 31)) ∧
      sp.orders ≠
        List.replicate 1 (1 : Int) ++ (List.range' 1 31).map (fun l => (2 : Int) ^ l) := by
  obtain ⟨-, -, hsp, -⟩ := main_of_checkOptions_ok (fun _ => 0) (fun _ _ _ => 1)
    { Config.initial with h_levels := 1, o_levels := 32 } Method.MG rfl
  have horders : (buildSpaces { Config.initial with h_levels := 1, o_levels := 32 }
      (buildMesh { Config.initial with h_levels := 1, o_levels := 32 })
      { attributesOf := Mesh.cartesianQuad, value := 1 }).orders =
      List.replicate 1 (1 : Int) ++ (List.range' 1 31).map newOrder := by
    rw [buildSpaces_eq]
    rfl
  have h31 : (List.replicate 1 (1 : Int) ++ (List.range' 1 31).map newOrder)[31]? =
      some (-(2 ^ 31)) := by
    decide
  refine ⟨_, hsp, ?_, ?_, ?_⟩
  · rw [horders]; decide
  · rw [horders]; exact h31
  · rw [horders]
    intro habs
    rw [habs] at h31
    revert h31
    decide

/-! ## The smoother and the Chebyshev order -/

/-- On a fully assembled level, `ConstructSmoother` returns the `HypreSmoother`
of the operator it was given. -/
theorem ConstructSmoother_fullAssembly (EstimateLargestEigenvalue : PowerMethod)
    (self : PoissonMultigridOperator) (fespace : FiniteElementSpace)
    (solveOperator : Operator) (essentialDofs : EssentialDofs) (chebyshevOrder : Int)
    (hpa : self.partialAssembly = false) :
    self.ConstructSmoother EstimateLargestEigenvalue fespace solveOperator essentialDofs
        chebyshevOrder = Solver.hypreSmoother solveOperator := by
  simp [PoissonMultigridOperator.ConstructSmoother, hpa]

/-- C14: on a partially assembled level the eigenvalue estimate is the result of
`EstimateLargestEigenvalue(powerOperator, ev, 10, 1e-8)` where `powerOperator`
is the product of a raw additive-Schwarz smoother of weight 1 and the operator
passed to `ConstructSmoother`, and the smoother returned is that raw smoother
with only its weight replaced (by `1 / theta`); on a fully assembled level the
`HypreSmoother` of the operator is returned, whatever the power method would
answer (it is not asked). -/
theorem C14_smoother_calibration (EstimateLargestEigenvalue : PowerMethod)
    (self : PoissonMultigridOperator) (fespace : FiniteElementSpace)
    (solveOperator : Operator) (essentialDofs : EssentialDofs) (chebyshevOrder : Int) :
    (self.partialAssembly = true →
        ∃ raw : AdditiveSchwarzApproxLORSmoother,
          raw.weight = 1 ∧ raw.fespace = fespace ∧ raw.essentialDofs = essentialDofs ∧
          raw.form = self.forms.getLast? ∧
          self.estLargestEigenvalue EstimateLargestEigenvalue fespace solveOperator
              essentialDofs =
            EstimateLargestEigenvalue { A := raw, B := solveOperator } 10 (1 / 100000000) ∧
          self.ConstructSmoother EstimateLargestEigenvalue fespace solveOperator essentialDofs
              chebyshevOrder =
            Solver.additiveSchwarzApproxLOR
              { raw with
                weight :=
                  1 / (1 / 2 *
                    (11 / 10 * self.estLargestEigenvalue EstimateLargestEigenvalue fespace
                        solveOperator essentialDofs +
                      0 * self.estLargestEigenvalue EstimateLargestEigenvalue fespace
                        solveOperator essentialDofs)) }) ∧
      (self.partialAssembly = false →
        ∀ anyPowerMethod : PowerMethod,
          self.ConstructSmoother anyPowerMethod fespace solveOperator essentialDofs
              chebyshevOrder = Solver.hypreSmoother solveOperator) := by
  refine ⟨fun hpa => ?_, fun hpa pm' => ?_⟩
  · refine ⟨
      { fespace := fespace
        essentialDofs := essentialDofs
        form := self.forms.getLast?
        coeffDiag := Vector.invSqrtCoeff fespace self.coeff
        LORdiag := Vector.uninitialized fespace
        LORmat :=
          { form :=
              { fespace :=
                  { mesh := Mesh.lowOrderRefined fespace.mesh fespace.GetOrder,
                    fec := { order := 1, dim := fespace.mesh.Dimension } }
                assemblyLevel := some AssemblyLevel.FULL
                integrators :=
                  [Integrator.diffusion self.coeff,
                    Integrator.mass Coefficient.minusOmegaSquared]
                precomputedSparsity := true
                assembled := true }
            essentialDofs := essentialDofs }
        weight := 1 }, rfl, rfl, rfl, rfl, ?_, ?_⟩
    · simp only [PoissonMultigridOperator.estLargestEigenvalue,
        PoissonMultigridOperator.AddIntegrators, BilinearForm.new, Mesh.Dimension,
        List.nil_append]
    · rw [ConstructSmoother_partialAssembly EstimateLargestEigenvalue self fespace
        solveOperator essentialDofs chebyshevOrder hpa]
  · exact ConstructSmoother_fullAssembly pm' self fespace solveOperator essentialDofs
      chebyshevOrder hpa

/-- C14 on a partially assembled and on a fully assembled operator. -/
theorem C14_smoother_calibration_witness :
    (∃ raw : AdditiveSchwarzApproxLORSmoother,
        raw.weight = 1 ∧
        (PoissonMultigridOperator.init true false false).estLargestEigenvalue
            (fun _ _ _ => 2) default (Operator.identity 4) default =
          (fun _ _ _ => 2 : PowerMethod) { A := raw, B := Operator.identity 4 } 10
            (1 / 100000000)) ∧
      (PoissonMultigridOperator.init false false false).ConstructSmoother (fun _ _ _ => 2)
          default (Operator.identity 4) default 3 =
        Solver.hypreSmoother (Operator.identity 4) := by
  obtain ⟨h1, h2⟩ := C14_smoother_calibration (fun _ _ _ => 2)
    (PoissonMultigridOperator.init true false false) default (Operator.identity 4) default 3
  obtain ⟨raw, hw, -, -, -, hest, -⟩ := h1 rfl
  exact ⟨⟨raw, hw, hest⟩,
    (C14_smoother_calibration (fun _ _ _ => 2)
      (PoissonMultigridOperator.init false false false) default (Operator.identity 4)
      default 3).2 rfl (fun _ _ _ => 2)⟩

/-- C16: two calls of `ConstructSmoother` that differ only in `chebyshevOrder`
return the same smoother: the same kind, the same weight and the same other
construction arguments. -/
theorem C16_smoother_ignores_chebyshevOrder (EstimateLargestEigenvalue : PowerMethod)
    (self : PoissonMultigridOperator) (fespace : FiniteElementSpace)
    (solveOperator : Operator) (essentialDofs : EssentialDofs)
    (chebyshevOrder chebyshevOrder2 : Int) :
    self.ConstructSmoother EstimateLargestEigenvalue fespace solveOperator essentialDofs
        chebyshevOrder =
      self.ConstructSmoother EstimateLargestEigenvalue fespace solveOperator essentialDofs
        chebyshevOrder2 := by
  cases hpa : self.partialAssembly
  · rw [ConstructSmoother_fullAssembly _ _ _ _ _ _ hpa,
      ConstructSmoother_fullAssembly _ _ _ _ _ _ hpa]
  · rw [ConstructSmoother_partialAssembly _ _ _ _ _ _ hpa,
      ConstructSmoother_partialAssembly _ _ _ _ _ _ hpa]

/-! ## The cycle executor -/

/-- The preconditioner that `main` builds: a V-cycle on `solveOperator` whose
two smoothing counts are both the option `smoothingSteps`. -/
theorem main_preconditioner (tvs : FiniteElementSpace → Nat) (pm : PowerMethod)
    (cfg : Config) (method : Method) (h : checkOptions cfg = Except.ok method) :
    (main tvs pm cfg).preconditioner =
      some { op := buildSolveOperator tvs pm cfg method
                (buildSpaces cfg (buildMesh cfg)
                  { attributesOf := Mesh.cartesianQuad, value := 1 })
             cycleType := CycleType.VCYCLE
             preSmoothingSteps := cfg.smoothingSteps
             postSmoothingSteps := cfg.smoothingSteps } := by
  simp [main, h]

/-- Whenever `main` builds a preconditioner, its two smoothing counts are equal. -/
theorem main_preconditioner_counts_eq (tvs : FiniteElementSpace → Nat) (pm : PowerMethod)
    (cfg : Config) (prec : MultigridSolver)
    (h : (main tvs pm cfg).preconditioner = some prec) :
    prec.preSmoothingSteps = cfg.smoothingSteps ∧
      prec.postSmoothingSteps = cfg.smoothingSteps := by
  cases hc : checkOptions cfg with
  | error msg =>
    rw [main_of_checkOptions_error tvs pm cfg msg hc] at h
    simp [MainState.start] at h
  | ok method =>
    rw [main_preconditioner tvs pm cfg method hc] at h
    cases Option.some.inj h
    exact ⟨rfl, rfl⟩

/-- C11 fails as stated: no configuration (and no behaviour of the library
functions) makes `main` build a cycle executor with 1 pre-smoothing step and 2
post-smoothing steps. -/
theorem C11_counterexample_one_pre_two_post :
    ¬ ∃ (tvs : FiniteElementSpace → Nat) (pm : PowerMethod) (cfg : Config)
        (prec : MultigridSolver),
        (main tvs pm cfg).preconditioner = some prec ∧
        prec.preSmoothingSteps = 1 ∧ prec.postSmoothingSteps = 2 := by
  rintro ⟨tvs, pm, cfg, prec, h, h1, h2⟩
  obtain ⟨e1, e2⟩ := main_preconditioner_counts_eq tvs pm cfg prec h
  rw [e1] at h1
  rw [e2, h1] at h2
  exact absurd h2 (by decide)

/-- C11, amended: the two smoothing counts are set together by the one option
`smoothingSteps`: in every configuration that passes the checks, the cycle
executor that `main` builds is a V-cycle with `smoothingSteps` pre-smoothing
steps and `smoothingSteps` post-smoothing steps. -/
theorem C11_smoothing_counts_set_together (GetTrueVSize : FiniteElementSpace → Nat)
    (EstimateLargestEigenvalue : PowerMethod) (cfg : Config) (method : Method)
    (hok : checkOptions cfg = Except.ok method) :
    ∃ prec : MultigridSolver,
      (main GetTrueVSize EstimateLargestEigenvalue cfg).preconditioner = some prec ∧
      prec.cycleType = CycleType.VCYCLE ∧
      prec.preSmoothingSteps = cfg.smoothingSteps ∧
      prec.postSmoothingSteps = cfg.smoothingSteps :=
  ⟨_, main_preconditioner GetTrueVSize EstimateLargestEigenvalue cfg method hok, rfl, rfl,
    rfl⟩

/-- C11, amended, with `-ss 5`: five pre- and five post-smoothing steps. -/
theorem C11_smoothing_counts_set_together_witness :
    checkOptions { Config.initial with smoothingSteps := 5 } = Except.ok Method.MG ∧
      ∃ prec : MultigridSolver,
        (main (fun _ => 0) (fun _ _ _ => 1)
          { Config.initial with smoothingSteps := 5 }).preconditioner = some prec ∧
        prec.cycleType = CycleType.VCYCLE ∧
        prec.preSmoothingSteps = 5 ∧
        prec.postSmoothingSteps = 5 :=
  ⟨rfl, C11_smoothing_counts_set_together (fun _ => 0) (fun _ _ _ => 1)
    { Config.initial with smoothingSteps := 5 } Method.MG rfl⟩


/-! ## The methods LOR and LORS -/

/-- The solver that the constructor stores with the coarsest level. -/
theorem new_smoothers (mesh : Mesh) (fespace : FiniteElementSpace)
    (essentialDofs : EssentialDofs) (coarseOrder : Int) (partialAssembly_ : Bool)
    (coarseSteps : Int) (useCoarsePCG_ jump : Bool) :
    (PoissonMultigridOperator.new mesh fespace essentialDofs coarseOrder partialAssembly_
        coarseSteps useCoarsePCG_ jump).smoothers =
      [Solver.gmres
        { printLevel := some 0, maxIter := some 2000, relTol := some (1 / 10000),
          absTol := some 0,
          oper := some (Spec.levelOperator partialAssembly_
            (if jump then Coefficient.affineX0 5 1 else Coefficient.constant 1)
            fespace essentialDofs),
          preconditioner := none }] := by
  have p0 := fun s m o e c k => (ConstructCoarseSolver_result s m o e c k).1
  have p3 := fun s m o e c k => (ConstructCoarseSolver_preserves s m o e c k).2.2.1
  have q1 := fun s f e => (ConstructOperator_eq s f e).1
  have q4 := fun s f e => (ConstructOperator_eq s f e).2.2.2.1
  simp only [PoissonMultigridOperator.new, MultigridOperator.AddCoarsestLevel, p0, p3, q1, q4]
  simp [PoissonMultigridOperator.init, MultigridOperator.new]

/-- The multigrid operator that `main` builds with the method LOR: the
constructor alone, on the finest space with the last order. -/
theorem buildSolveOperator_LOR (tvs : FiniteElementSpace → Nat) (pm : PowerMethod)
    (cfg : Config) (sp : Spaces) :
    buildSolveOperator tvs pm cfg Method.LOR sp =
      PoissonMultigridOperator.new sp.spaceHierarchy.GetFinestFESpace.mesh
        sp.spaceHierarchy.GetFinestFESpace (sp.essentialTrueDoFs.getLastD default)
        (sp.orders.getLastD default) cfg.partialAssembly cfg.coarseSteps cfg.useCoarsePCG
        cfg.jump := by
  have h1 : Method.LOR = Method.LOR ∨ Method.LOR = Method.LORS := Or.inl rfl
  have h2 : ¬ Method.LOR = Method.LORS := by decide
  unfold buildSolveOperator
  rw [if_pos h1, if_neg h2]

/-- The multigrid operator that `main` builds with the method LORS: the level
of the method LOR, and above it a level with the same operator, the smoother
that `ConstructSmoother` builds on the finest space, and the identity of the
size of the operator as transfer operator. -/
theorem buildSolveOperator_LORS (tvs : FiniteElementSpace → Nat) (pm : PowerMethod)
    (cfg : Config) (sp : Spaces) :
    ∃ (opr : Operator) (coarseSolver : Solver),
      opr = Spec.levelOperator cfg.partialAssembly
        (if cfg.jump then Coefficient.affineX0 5 1 else Coefficient.constant 1)
        sp.spaceHierarchy.GetFinestFESpace (sp.essentialTrueDoFs.getLastD default) ∧
      (buildSolveOperator tvs pm cfg Method.LOR sp).operators = [opr] ∧
      (buildSolveOperator tvs pm cfg Method.LOR sp).smoothers = [coarseSolver] ∧
      (buildSolveOperator tvs pm cfg Method.LORS sp).operators = [opr, opr] ∧
      (buildSolveOperator tvs pm cfg Method.LORS sp).smoothers =
        [coarseSolver,
          (buildSolveOperator tvs pm cfg Method.LOR sp).ConstructSmoother pm
            sp.spaceHierarchy.GetFinestFESpace opr (sp.essentialTrueDoFs.getLastD default)
            cfg.chebyshevOrder] ∧
      (buildSolveOperator tvs pm cfg Method.LORS sp).prolongations =
        [Operator.identity (opr.Height tvs)] ∧
      opr.Height tvs = tvs sp.spaceHierarchy.GetFinestFESpace := by
  obtain ⟨-, n2, n3, -⟩ := new_fields sp.spaceHierarchy.GetFinestFESpace.mesh
    sp.spaceHierarchy.GetFinestFESpace (sp.essentialTrueDoFs.getLastD default)
    (sp.orders.getLastD default) cfg.partialAssembly cfg.coarseSteps cfg.useCoarsePCG cfg.jump
  have n5 := new_smoothers sp.spaceHierarchy.GetFinestFESpace.mesh
    sp.spaceHierarchy.GetFinestFESpace (sp.essentialTrueDoFs.getLastD default)
    (sp.orders.getLastD default) cfg.partialAssembly cfg.coarseSteps cfg.useCoarsePCG cfg.jump
  have h1 : Method.LORS = Method.LOR ∨ Method.LORS = Method.LORS := Or.inr rfl
  refine ⟨Spec.levelOperator cfg.partialAssembly
      (if cfg.jump then Coefficient.affineX0 5 1 else Coefficient.constant 1)
      sp.spaceHierarchy.GetFinestFESpace (sp.essentialTrueDoFs.getLastD default),
    Solver.gmres
      { printLevel := some 0, maxIter := some 2000, relTol := some (1 / 10000),
        absTol := some 0,
        oper := some (Spec.levelOperator cfg.partialAssembly
          (if cfg.jump then Coefficient.affineX0 5 1 else Coefficient.constant 1)
          sp.spaceHierarchy.GetFinestFESpace (sp.essentialTrueDoFs.getLastD default)),
        preconditioner := none },
    rfl, ?_, ?_, ?_, ?_, ?_, ?_⟩
  · rw [buildSolveOperator_LOR, n2]
  · rw [buildSolveOperator_LOR, n5]
  · unfold buildSolveOperator
    rw [if_pos h1, if_pos rfl]
    simp only [MultigridOperator.AddLevel, MultigridOperator.GetOperatorAtLevel, n2]
    rfl
  · rw [buildSolveOperator_LOR]
    unfold buildSolveOperator
    rw [if_pos h1, if_pos rfl]
    simp only [MultigridOperator.AddLevel, MultigridOperator.GetOperatorAtLevel, n2, n5]
    rfl
  · unfold buildSolveOperator
    rw [if_pos h1, if_pos rfl]
    simp only [MultigridOperator.AddLevel, MultigridOperator.GetOperatorAtLevel, n3,
      MultigridOperator.Height, n2]
    rfl
  · rfl

/-- The last element of a list that is not empty. -/
theorem getLast?_eq_some_getLastD {α : Type} (l : List α) (d : α) (h : 1 ≤ l.length) :
    l.getLast? = some (l.getLastD d) := by
  cases l with
  | nil => simp at h
  | cons a t => simp [List.getLast?_eq_getLast, List.getLastD_eq_getLast?]

/-- The number of levels of the multigrid operator built with the method MG. -/
theorem buildSolveOperator_MG_numLevels (tvs : FiniteElementSpace → Nat) (pm : PowerMethod)
    (cfg : Config) (sp : Spaces) (hpos : 1 ≤ sp.spaceHierarchy.GetNumLevels) :
    (buildSolveOperator tvs pm cfg Method.MG sp).NumLevels =
      sp.spaceHierarchy.GetNumLevels := by
  obtain ⟨ho, -, -⟩ := buildSolveOperator_MG tvs pm cfg sp
  simp only [MultigridOperator.NumLevels, ho, List.length_cons, List.length_map,
    List.length_range']
  omega

/-- C15: the levels of the multigrid operator by method.  With LOR it is the
constructor alone: one level, on the finest space of the hierarchy with the
last (finest) order.  With LORS there are two levels: level 1 holds the same
operator as level 0, the smoother that `ConstructSmoother` builds on the finest
space, and the identity of the size of the height of the operator as transfer
operator.  With MG there are as many levels as the space hierarchy has. -/
theorem C15_levels_by_method (GetTrueVSize : FiniteElementSpace → Nat)
    (EstimateLargestEigenvalue : PowerMethod) (cfg : Config) (method : Method)
    (hok : checkOptions cfg = Except.ok method) :
    ∃ (op : PoissonMultigridOperator) (sp : Spaces) (finest : FiniteElementSpace)
      (finestOrder : Int) (finestDofs : EssentialDofs),
      (main GetTrueVSize EstimateLargestEigenvalue cfg).solveOperator = some op ∧
      (main GetTrueVSize EstimateLargestEigenvalue cfg).spaces = some sp ∧
      sp.spaceHierarchy.fespaces.getLast? = some finest ∧
      sp.orders.getLast? = some finestOrder ∧
      sp.essentialTrueDoFs.getLast? = some finestDofs ∧
      (method = Method.LOR →
        op = PoissonMultigridOperator.new finest.mesh finest finestDofs finestOrder
          cfg.partialAssembly cfg.coarseSteps cfg.useCoarsePCG cfg.jump ∧
        op.NumLevels = 1 ∧ op.prolongations = [] ∧
        ∃ form type, op.operators = [Operator.systemMatrix form finestDofs type] ∧
          form.fespace = finest) ∧
      (method = Method.LORS →
        op.NumLevels = 2 ∧
        ∃ (opr : Operator) (coarseSolver : Solver),
          op.operators = [opr, opr] ∧
          op.smoothers =
            [coarseSolver,
              (PoissonMultigridOperator.new finest.mesh finest finestDofs finestOrder
                cfg.partialAssembly cfg.coarseSteps cfg.useCoarsePCG
                cfg.jump).ConstructSmoother EstimateLargestEigenvalue finest opr finestDofs
                cfg.chebyshevOrder] ∧
          op.prolongations = [Operator.identity (opr.Height GetTrueVSize)] ∧
          opr.Height GetTrueVSize = GetTrueVSize finest) ∧
      (method = Method.MG → op.NumLevels = sp.spaceHierarchy.GetNumLevels) := by
  obtain ⟨-, -, hsp, hop⟩ :=
    main_of_checkOptions_ok GetTrueVSize EstimateLargestEigenvalue cfg method hok
  have hnum := buildSpaces_numLevels cfg (buildMesh cfg)
    { attributesOf := Mesh.cartesianQuad, value := 1 }
  have hlenO : (buildSpaces cfg (buildMesh cfg)
      { attributesOf := Mesh.cartesianQuad, value := 1 }).orders.length =
      1 + Spec.geometricSteps cfg + Spec.orderSteps cfg := by
    rw [buildSpaces_eq]
    simp only [Spec.levelOrders, List.length_append, List.length_replicate, List.length_map,
      List.length_range']
    omega
  have hlenE : (buildSpaces cfg (buildMesh cfg)
      { attributesOf := Mesh.cartesianQuad, value := 1 }).essentialTrueDoFs.length =
      1 + Spec.geometricSteps cfg + Spec.orderSteps cfg := by
    rw [← hnum, buildSpaces_eq]
    simp [ParSpaceHierarchy.GetNumLevels]
  generalize buildSpaces cfg (buildMesh cfg)
    { attributesOf := Mesh.cartesianQuad, value := 1 } = sp at hsp hop hnum hlenO hlenE
  have hpos : 1 ≤ sp.spaceHierarchy.GetNumLevels := by omega
  refine ⟨_, sp, sp.spaceHierarchy.GetFinestFESpace, sp.orders.getLastD default,
    sp.essentialTrueDoFs.getLastD default, hop, hsp,
    getLast?_eq_some_getLastD _ _ hpos, getLast?_eq_some_getLastD _ _ (by omega),
    getLast?_eq_some_getLastD _ _ (by omega), ?_, ?_, ?_⟩
  · intro hm
    subst hm
    obtain ⟨-, n2, n3, -⟩ := new_fields sp.spaceHierarchy.GetFinestFESpace.mesh
      sp.spaceHierarchy.GetFinestFESpace (sp.essentialTrueDoFs.getLastD default)
      (sp.orders.getLastD default) cfg.partialAssembly cfg.coarseSteps cfg.useCoarsePCG
      cfg.jump
    obtain ⟨form, type, hform, hfes⟩ := levelOperator_on_space cfg.partialAssembly
      (if cfg.jump then Coefficient.affineX0 5 1 else Coefficient.constant 1)
      sp.spaceHierarchy.GetFinestFESpace (sp.essentialTrueDoFs.getLastD default)
    rw [buildSolveOperator_LOR]
    refine ⟨rfl, ?_, n3, form, type, ?_, hfes⟩
    · simp only [MultigridOperator.NumLevels, n2, List.length_singleton]
    · rw [n2, hform]
  · intro hm
    subst hm
    obtain ⟨opr, coarseSolver, -, -, -, h4, h5, h6, h7⟩ :=
      buildSolveOperator_LORS GetTrueVSize EstimateLargestEigenvalue cfg sp
    rw [buildSolveOperator_LOR] at h5
    refine ⟨?_, opr, coarseSolver, h4, h5, h6, h7⟩
    simp only [MultigridOperator.NumLevels, h4, List.length_cons, List.length_nil]
  · intro hm
    subst hm
    exact buildSolveOperator_MG_numLevels GetTrueVSize EstimateLargestEigenvalue cfg sp hpos

/-- C15 with `-p LORS` and with `-p LOR` (two geometric levels in the
hierarchy): two levels and one level. -/
theorem C15_levels_by_method_witness :
    (∃ op : PoissonMultigridOperator,
        (main (fun _ => 0) (fun _ _ _ => 1)
          { Config.initial with precondInput := "LORS" }).solveOperator = some op ∧
        op.NumLevels = 2) ∧
      (∃ op : PoissonMultigridOperator,
        (main (fun _ => 0) (fun _ _ _ => 1)
          { Config.initial with precondInput := "LOR" }).solveOperator = some op ∧
        op.NumLevels = 1) := by
  obtain ⟨op, _, _, _, _, h1, _, _, _, _, _, h2, _⟩ :=
    C15_levels_by_method (fun _ => 0) (fun _ _ _ => 1)
      { Config.initial with precondInput := "LORS" } Method.LORS rfl
  obtain ⟨op2, _, _, _, _, g1, _, _, _, _, g2, _, _⟩ :=
    C15_levels_by_method (fun _ => 0) (fun _ _ _ => 1)
      { Config.initial with precondInput := "LOR" } Method.LOR rfl
  exact ⟨⟨op, h1, (h2 rfl).1⟩, ⟨op2, g1, (g2 rfl).2.1⟩⟩

/-- C12: with the method MG and no refinement (`h_levels = 1`, `o_levels = 1`)
the hierarchy has one space and the multigrid operator one level, with one
operator, one solver and no transfer operator; one application of the cycle is
the single step that applies the solver stored with that level, with no
restriction, no recursion and no prolongation; and the operator of the level is
square on the unknowns of the space. -/
theorem C12_single_level_cycle (GetTrueVSize : FiniteElementSpace → Nat)
    (EstimateLargestEigenvalue : PowerMethod) (cfg : Config)
    (hMG : checkOptions cfg = Except.ok Method.MG)
    (hh : cfg.h_levels = 1) (ho : cfg.o_levels = 1) :
    ∃ (op : PoissonMultigridOperator) (sp : Spaces) (prec : MultigridSolver)
      (fespace : FiniteElementSpace) (opr : Operator) (solver : Solver),
      (main GetTrueVSize EstimateLargestEigenvalue cfg).solveOperator = some op ∧
      (main GetTrueVSize EstimateLargestEigenvalue cfg).spaces = some sp ∧
      (main GetTrueVSize EstimateLargestEigenvalue cfg).preconditioner = some prec ∧
      prec.op = op ∧
      sp.spaceHierarchy.fespaces = [fespace] ∧
      op.NumLevels = 1 ∧
      op.operators = [opr] ∧ op.smoothers = [solver] ∧ op.prolongations = [] ∧
      (∀ k : Nat, op.GetProlongationAtLevel k = none) ∧
      prec.Mult = [CycleStep.COARSE_SOLVE] ∧
      CycleStep.COARSE_SOLVE.solver op = some solver ∧
      opr.Width GetTrueVSize = GetTrueVSize fespace ∧
      opr.Height GetTrueVSize = GetTrueVSize fespace := by
  obtain ⟨-, -, hsp, hop⟩ :=
    main_of_checkOptions_ok GetTrueVSize EstimateLargestEigenvalue cfg Method.MG hMG
  have hprec := main_preconditioner GetTrueVSize EstimateLargestEigenvalue cfg Method.MG hMG
  have hg : Spec.geometricSteps cfg = 0 := by simp [Spec.geometricSteps, hh]
  have hos : Spec.orderSteps cfg = 0 := by simp [Spec.orderSteps, ho]
  have hspaces : (buildSpaces cfg (buildMesh cfg)
      { attributesOf := Mesh.cartesianQuad, value := 1 }).spaceHierarchy.fespaces =
      [Spec.geometricSpace (buildMesh cfg)
        { order := cfg.order, dim := (buildMesh cfg).Dimension } 0] := by
    rw [buildSpaces_eq]
    simp only [Spec.levelSpaces, hg, hos]
    rfl
  generalize buildSpaces cfg (buildMesh cfg)
    { attributesOf := Mesh.cartesianQuad, value := 1 } = sp at hsp hop hprec hspaces
  obtain ⟨ho1, hp1, hs1⟩ :=
    buildSolveOperator_MG GetTrueVSize EstimateLargestEigenvalue cfg sp
  have hL : sp.spaceHierarchy.GetNumLevels = 1 := by
    simp [ParSpaceHierarchy.GetNumLevels, hspaces]
  rw [hL] at ho1 hp1 hs1
  have hF0 : sp.spaceHierarchy.GetFESpaceAtLevel 0 =
      Spec.geometricSpace (buildMesh cfg)
        { order := cfg.order, dim := (buildMesh cfg).Dimension } 0 := by
    simp [ParSpaceHierarchy.GetFESpaceAtLevel, hspaces]
  obtain ⟨solver, hsolver⟩ := List.length_eq_one.mp hs1
  obtain ⟨form, type, hform, hfes⟩ := levelOperator_on_space cfg.partialAssembly
    (if cfg.jump then Coefficient.affineX0 5 1 else Coefficient.constant 1)
    (sp.spaceHierarchy.GetFESpaceAtLevel 0) (sp.essentialTrueDoFs.getD 0 default)
  have hops : (buildSolveOperator GetTrueVSize EstimateLargestEigenvalue cfg Method.MG
      sp).operators =
      [Operator.systemMatrix form (sp.essentialTrueDoFs.getD 0 default) type] := by
    rw [ho1, hform]; rfl
  have hpro : (buildSolveOperator GetTrueVSize EstimateLargestEigenvalue cfg Method.MG
      sp).prolongations = [] := by
    rw [hp1]; rfl
  have hN : (buildSolveOperator GetTrueVSize EstimateLargestEigenvalue cfg Method.MG
      sp).NumLevels = 1 := by
    simp only [MultigridOperator.NumLevels, hops, List.length_singleton]
  refine ⟨_, sp, _, _, _, solver, hop, hsp, hprec, rfl, hspaces, hN, hops, hsolver, hpro,
    ?_, ?_, ?_, ?_, ?_⟩
  · intro k
    cases k with
    | zero => rfl
    | succ j => simp [MultigridOperator.GetProlongationAtLevel, hpro]
  · simp only [MultigridSolver.Mult, hN, Nat.sub_self, MultigridSolver.Cycle]
  · simp [CycleStep.solver, hsolver]
  · show GetTrueVSize form.fespace = _
    rw [hfes, hF0]
  · show GetTrueVSize form.fespace = _
    rw [hfes, hF0]

/-- C12 at `-hl 1 -ol 1`. -/
theorem C12_single_level_cycle_witness :
    checkOptions { Config.initial with h_levels := 1, o_levels := 1 } =
        Except.ok Method.MG ∧
      ∃ (op : PoissonMultigridOperator) (prec : MultigridSolver) (solver : Solver),
        (main (fun _ => 0) (fun _ _ _ => 1)
          { Config.initial with h_levels := 1, o_levels := 1 }).solveOperator = some op ∧
        (main (fun _ => 0) (fun _ _ _ => 1)
          { Config.initial with h_levels := 1, o_levels := 1 }).preconditioner = some prec ∧
        op.NumLevels = 1 ∧ op.smoothers = [solver] ∧ op.prolongations = [] ∧
        prec.Mult = [CycleStep.COARSE_SOLVE] := by
  refine ⟨rfl, ?_⟩
  obtain ⟨op, _, prec, _, _, solver, h1, _, h3, _, _, h6, _, h8, h9, _, h11, _⟩ :=
    C12_single_level_cycle (fun _ => 0) (fun _ _ _ => 1)
      { Config.initial with h_levels := 1, o_levels := 1 } rfl rfl rfl
  exact ⟨op, prec, solver, h1, h3, h6, h8, h9, h11⟩

end MG

namespace HelmholtzPML

/-! ## The source terms of the Helmholtz driver -/

end HelmholtzPML
